import Mathlib

/-!
The ja-rule admin tool: message layer.

A shallow embedding of `tools/ja-rule/ja-rule.cpp`:

* `MessageHandler` (reply decoder): `NewMessage`, `PrintEcho`, `PrintLog`,
  `PrintFlags`, `PrintAck`;
* `InputHandler` (keystroke dispatcher and device slot): `DeviceEvent`,
  `Input`, `PrintCommands`, `CheckForDevice`, `GetLogs`, `GetFlags`,
  `SendDMX`, `SendEcho`, `WriteLog`.

Byte strings (`std::string`, `uint8_t*` + size) are lists of byte values.
Side effects (log lines, `cout`, `SendMessage`, `SetHandler`, `Terminate`)
are returned as traces, in program order.
-/

namespace JaRule

/-- A byte string: the contents of a `std::string` or of a `uint8_t` array. -/
abbrev Bytes := List Nat

/-- The bytes of an ASCII string literal of the source. -/
def ascii (s : String) : Bytes := s.toList.map Char.toNat

/-- Decimal rendering of an unsigned value, as `operator<<` prints it. -/
def decimal (n : Nat) : Bytes := (Nat.toDigits 10 n).map Char.toNat

/-- The constants the tool takes from its headers, kept abstract: the five
command codes of `OpenLightingDevice`, the three flag masks, and the
`ola::strings::ToHex` formatter.  The command codes are the labels of one
`switch`, hence pairwise distinct. -/
structure Protocol where
  ECHO_COMMAND : Nat
  TX_DMX : Nat
  GET_LOG : Nat
  GET_FLAGS : Nat
  WRITE_LOG : Nat
  LOGS_PENDING_FLAG : Nat
  FLAGS_CHANGED_FLAG : Nat
  MSG_TRUNCATED_FLAG : Nat
  ToHex : Nat → Bytes
  distinct : [ECHO_COMMAND, TX_DMX, GET_LOG, GET_FLAGS, WRITE_LOG].Nodup

/-- A sample instantiation of the constants, used to evaluate the model on
concrete inputs. -/
def sampleProtocol : Protocol where
  ECHO_COMMAND := 0x80
  TX_DMX := 0x81
  GET_LOG := 0x82
  GET_FLAGS := 0x83
  WRITE_LOG := 0x84
  LOGS_PENDING_FLAG := 0x01
  FLAGS_CHANGED_FLAG := 0x02
  MSG_TRUNCATED_FLAG := 0x04
  ToHex := fun v => ascii "0x" ++ (Nat.toDigits 16 v).map Char.toNat
  distinct := by decide

/-- A reply delivered by the device (`Message`).  `payload = none` is a NULL
payload pointer; `payload_size` is the number of bytes behind the pointer. -/
structure Message where
  command : Nat
  return_code : Nat
  flags : Nat
  payload : Option Bytes
deriving DecidableEq, Repr

/-- The `payload_size` field of a message. -/
def Message.payload_size (m : Message) : Nat := (m.payload.getD []).length

/-- One line of human-visible output. -/
inductive Output
  /-- `OLA_INFO << text`. -/
  | INFO (text : Bytes)
  /-- `OLA_WARN << text`. -/
  | WARN (text : Bytes)
  /-- `cout << text << endl`. -/
  | COUT (text : Bytes)
  /-- `ola::strings::FormatData(&std::cout, data, size)`: a hex + ASCII dump. -/
  | DATA (data : Bytes)
deriving DecidableEq, Repr

/-- What can go wrong inside a callback. -/
inductive Fault
  /-- `std::out_of_range` thrown by a `std::string` member. -/
  | out_of_range
  /-- The iteration budget of a loop was used up. -/
  | out_of_fuel
deriving DecidableEq, Repr

deriving instance DecidableEq for Except

/-- State of `MessageHandler`: the field `m_log_buffer`. -/
structure MessageHandler where
  m_log_buffer : Bytes
deriving DecidableEq, Repr

/-- Index of the first occurrence of `c` in `s`, if any. -/
def scan (c : Nat) : Bytes → Option Nat
  | [] => none
  | b :: rest => if b = c then some 0 else (scan c rest).map (· + 1)

/-- Model of `std::string::find_first_of(c, pos)`: the first index `i ≥ pos` with
`s[i] = c`; `none` is `string::npos`. -/
def find_first_of (s : Bytes) (c : Nat) (pos : Nat) : Option Nat :=
  (scan c (s.drop pos)).map (· + pos)

/-- Model of `std::string::substr(pos, len)`: throws when `pos > size()`. -/
def substr (s : Bytes) (pos len : Nat) : Except Fault Bytes :=
  if pos > s.length then .error .out_of_range else .ok ((s.drop pos).take len)

/-- Model of `std::string::erase(pos, len)`: throws when `pos > size()`. -/
def erase (s : Bytes) (pos len : Nat) : Except Fault Bytes :=
  if pos > s.length then .error .out_of_range else .ok (s.take pos ++ s.drop (pos + len))

/-- The `while (true)` loop of `PrintLog` (lines 114-128), started with the
cursor at `start`; each unit of `fuel` pays for one iteration.  Returns the
lines printed and the final `m_log_buffer`. -/
def drain : Nat → Bytes → Nat → Except Fault (List Output × Bytes)
  | 0, _, _ => .error .out_of_fuel
  | fuel + 1, buf, start =>
    match find_first_of buf 0 start with
    | none =>
      match erase buf 0 start with
      | .error e => .error e
      | .ok buf' => .ok ([], buf')
    | some pos =>
      match substr buf start (pos - start) with
      | .error e => .error e
      | .ok line =>
        let out := [Output.INFO
                      (ascii "[" ++ decimal start ++ ascii ", " ++ decimal pos ++ ascii "]"),
                    Output.INFO (ascii "LOG: " ++ line)]
        if pos + 1 = buf.length then .ok (out, [])
        else
          match drain fuel buf (pos + 1) with
          | .error e => .error e
          | .ok (rest, buf') => .ok (out ++ rest, buf')

/-- `MessageHandler::PrintLog(data, size)`. -/
def PrintLog (h : MessageHandler) (data : Option Bytes) :
    Except Fault (List Output × MessageHandler) :=
  match data with
  | none => .ok ([.WARN (ascii "Malformed logs response")], h)
  | some [] => .ok ([.WARN (ascii "Malformed logs response")], h)
  | some (d0 :: rest) =>
    let overflow : Bool := d0 != 0
    let buf := h.m_log_buffer ++ rest
    match drain (buf.length + 1) buf 0 with
    | .error e => .error e
    | .ok (lines, buf') =>
      .ok (lines ++
            (if overflow then
              [.INFO (ascii "Log overflow occured, some messages have been lost")]
             else []),
           { m_log_buffer := buf' })

/-- `MessageHandler::PrintEcho`. -/
def PrintEcho (m : Message) : List Output :=
  let response : Bytes :=
    match m.payload with
    | some p => if m.payload_size > 0 then p else []
    | none => []
  [.INFO (ascii "Echo Reply (" ++ decimal m.return_code ++ ascii "): " ++ response)]

/-- `MessageHandler::PrintFlags`. -/
def PrintFlags (m : Message) : List Output :=
  .INFO (ascii "Flags (" ++ decimal m.return_code ++ ascii "):") ::
    (match m.payload with
     | some p => if m.payload_size ≠ 0 then [.DATA p] else []
     | none => [])

/-- `MessageHandler::PrintAck`. -/
def PrintAck (m : Message) : List Output :=
  [.INFO (ascii "ACK (" ++ decimal m.return_code ++ ascii "): payload_size: " ++
     decimal m.payload_size)]

/-- The `switch` of `MessageHandler::NewMessage` (lines 56-74). -/
def dispatch (P : Protocol) (h : MessageHandler) (m : Message) :
    Except Fault (List Output × MessageHandler) :=
  if m.command = P.ECHO_COMMAND then .ok (PrintEcho m, h)
  else if m.command = P.TX_DMX then .ok (PrintAck m, h)
  else if m.command = P.GET_LOG then PrintLog h m.payload
  else if m.command = P.GET_FLAGS then .ok (PrintFlags m, h)
  else if m.command = P.WRITE_LOG then .ok (PrintAck m, h)
  else .ok ([.WARN (ascii "Unknown command: " ++ P.ToHex m.command)], h)

/-- The three `if (message.flags & ...)` statements of `NewMessage` (lines 76-84). -/
def flagLines (P : Protocol) (flags : Nat) : List Output :=
  (if flags &&& P.LOGS_PENDING_FLAG ≠ 0 then [.INFO (ascii "Logs pending!")] else []) ++
  (if flags &&& P.FLAGS_CHANGED_FLAG ≠ 0 then [.INFO (ascii "Flags changed!")] else []) ++
  (if flags &&& P.MSG_TRUNCATED_FLAG ≠ 0 then [.INFO (ascii "Message truncated")] else [])

/-- `MessageHandler::NewMessage`. -/
def NewMessage (P : Protocol) (h : MessageHandler) (m : Message) :
    Except Fault (List Output × MessageHandler) :=
  match dispatch P h m with
  | .error e => .error e
  | .ok (out, h') => .ok (out ++ flagLines P m.flags, h')

/-- Successive calls of `NewMessage`, one per reply, in delivery order. -/
def NewMessages (P : Protocol) (h : MessageHandler) :
    List Message → Except Fault (List Output × MessageHandler)
  | [] => .ok ([], h)
  | m :: ms =>
    match NewMessage P h m with
    | .error e => .error e
    | .ok (out, h') =>
      match NewMessages P h' ms with
      | .error e => .error e
      | .ok (outs, h'') => .ok (out ++ outs, h'')

/-- A device handle: the identity of an `OpenLightingDevice` object owned by
the `USBDeviceManager`. -/
abbrev Handle := Nat

/-- `USBDeviceManager::EventType`. -/
inductive EventType
  | DEVICE_ADDED
  | DEVICE_REMOVED
deriving DecidableEq, Repr

/-- One externally visible effect of an `InputHandler` callback. -/
inductive Action
  /-- A line written to the log or to `cout`. -/
  | print (line : Output)
  /-- `device->SendMessage(command, data, size)`; `data = none` is NULL. -/
  | SendMessage (device : Handle) (command : Nat) (data : Option Bytes) (size : Nat)
  /-- `device->SetHandler(&m_handler)`. -/
  | SetHandler (device : Handle)
  /-- `m_ss->Terminate()`. -/
  | Terminate
deriving DecidableEq, Repr

/-- Number of values of `unsigned int` (`UINT_MAX + 1`, 32-bit `unsigned int`). -/
def UINT_RANGE : Nat := 2 ^ 32

/-- State of `InputHandler`: `m_handler`, `m_device` (`none` is NULL) and
`m_log_count`. -/
structure InputHandler where
  m_handler : MessageHandler
  m_device : Option Handle
  m_log_count : Nat
deriving DecidableEq, Repr

/-- The state built by the constructor `InputHandler::InputHandler`. -/
def InputHandler.init : InputHandler :=
  { m_handler := { m_log_buffer := [] }, m_device := none, m_log_count := 0 }

/-- `InputHandler::DeviceEvent(event, device)`; `device` is the object the
manager reports, which is never NULL. -/
def DeviceEvent (s : InputHandler) (event : EventType) (device : Handle) :
    List Action × InputHandler :=
  if event = .DEVICE_ADDED then
    ([.print (.INFO (ascii "Open Lighting Device added")), .SetHandler device],
     { s with m_device := some device })
  else
    ([.print (.INFO (ascii "Open Lighting Device removed"))],
     { s with m_device := none })

/-- `InputHandler::PrintCommands`. -/
def PrintCommands : List Action :=
  [.print (.COUT (ascii "Commands:")),
   .print (.COUT (ascii " d - Send DMX frame")),
   .print (.COUT (ascii " e - Send Echo command")),
   .print (.COUT (ascii " f - Fetch Flags State")),
   .print (.COUT (ascii " h - Print this help message")),
   .print (.COUT (ascii " l - Fetch Logs")),
   .print (.COUT (ascii " w - Write Log")),
   .print (.COUT (ascii " q - Quit"))]

/-- `InputHandler::CheckForDevice`: the lines printed and the value returned. -/
def CheckForDevice (s : InputHandler) : List Action × Bool :=
  match s.m_device with
  | none => ([.print (.INFO (ascii "Device not present"))], false)
  | some _ => ([], true)

/-- `InputHandler::GetLogs`: return when `CheckForDevice()` fails, else send. -/
def GetLogs (P : Protocol) (s : InputHandler) : List Action × InputHandler :=
  let check := CheckForDevice s
  match check.2, s.m_device with
  | true, some dev => (check.1 ++ [.SendMessage dev P.GET_LOG none 0], s)
  | _, _ => (check.1, s)

/-- `InputHandler::GetFlags`. -/
def GetFlags (P : Protocol) (s : InputHandler) : List Action × InputHandler :=
  let check := CheckForDevice s
  match check.2, s.m_device with
  | true, some dev => (check.1 ++ [.SendMessage dev P.GET_FLAGS none 0], s)
  | _, _ => (check.1, s)

/-- `InputHandler::SendDMX`. -/
def SendDMX (P : Protocol) (s : InputHandler) : List Action × InputHandler :=
  let check := CheckForDevice s
  match check.2, s.m_device with
  | true, some dev =>
    let payload : Bytes := [255, 1, 2, 3, 4, 5, 6]
    (check.1 ++ [.SendMessage dev P.TX_DMX (some payload) payload.length], s)
  | _, _ => (check.1, s)

/-- `InputHandler::SendEcho`. -/
def SendEcho (P : Protocol) (s : InputHandler) : List Action × InputHandler :=
  let check := CheckForDevice s
  match check.2, s.m_device with
  | true, some dev =>
    let payload : Bytes := ['e', 'c', 'h', 'o', ' ', 't', 'e', 's', 't'].map Char.toNat
    (check.1 ++ [.SendMessage dev P.ECHO_COMMAND (some payload) payload.length], s)
  | _, _ => (check.1, s)

/-- `InputHandler::WriteLog`; `m_log_count++` wraps at `UINT_MAX`. -/
def WriteLog (P : Protocol) (s : InputHandler) : List Action × InputHandler :=
  let check := CheckForDevice s
  match check.2, s.m_device with
  | true, some dev =>
    let payload : Bytes :=
      ascii "Log Test " ++ decimal s.m_log_count ++ ascii ", this is quite long"
    (check.1 ++ [.SendMessage dev P.WRITE_LOG (some payload) payload.length],
     { s with m_log_count := (s.m_log_count + 1) % UINT_RANGE })
  | _, _ => (check.1, s)

/-- The `int` value of a character literal. -/
def key (ch : Char) : Int := ch.toNat

/-- `InputHandler::Input(c)`. -/
def Input (P : Protocol) (s : InputHandler) (c : Int) : List Action × InputHandler :=
  if c = key 'd' then SendDMX P s
  else if c = key 'e' then SendEcho P s
  else if c = key 'f' then GetFlags P s
  else if c = key 'h' then (PrintCommands, s)
  else if c = key 'l' then GetLogs P s
  else if c = key 'q' then ([.Terminate], s)
  else if c = key 'w' then WriteLog P s
  else ([], s)

/-- A reply delivered by the device to the handler registered with
`SetHandler(&m_handler)`: `m_handler.NewMessage(message)`. -/
def deliver (P : Protocol) (s : InputHandler) (m : Message) :
    Except Fault (List Output × InputHandler) :=
  match NewMessage P s.m_handler m with
  | .error e => .error e
  | .ok (out, h') => .ok (out, { s with m_handler := h' })

/-- An event delivered by the select server to the `InputHandler`: a device
notification from the `USBDeviceManager` or a character from stdin. -/
inductive Event
  | device (event : EventType) (device : Handle)
  | input (c : Int)
deriving DecidableEq, Repr

/-- The callback run for one event. -/
def handle (P : Protocol) (s : InputHandler) : Event → List Action × InputHandler
  | .device event device => DeviceEvent s event device
  | .input c => Input P s c

/-- The callbacks run for a sequence of events, in order: the concatenated
trace of effects and the final state. -/
def run (P : Protocol) (s : InputHandler) : List Event → List Action × InputHandler
  | [] => ([], s)
  | e :: es =>
    let r := handle P s e
    let r' := run P r.2 es
    (r.1 ++ r'.1, r'.2)

/-! ## Vocabulary of the specification -/

/-- The cumulative log stream of a sequence of replies: the bytes after the
overflow byte of every `GET_LOG` reply, concatenated in delivery order. -/
def logStream (P : Protocol) (ms : List Message) : Bytes :=
  ((ms.filter (fun m => m.command = P.GET_LOG)).map
    (fun m => (m.payload.getD []).drop 1)).flatten

/-- The bytes one reply adds to the log stream: `payload[1..]` for a `GET_LOG`
reply, nothing for any other reply. -/
def chunk (P : Protocol) (m : Message) : Bytes :=
  if m.command = P.GET_LOG then (m.payload.getD []).drop 1 else []

/-- The null-terminated records of a byte stream, in order: the pieces between
null bytes, without the piece that follows the last null. -/
def records (s : Bytes) : List Bytes := (s.splitOn 0).dropLast

/-- The bytes of a stream that follow its last null byte (the whole stream
when it has none). -/
def afterLastNull (s : Bytes) : Bytes := (s.reverse.takeWhile (· != 0)).reverse

/-- The stream made of the records `recs`, each followed by its null
terminator, and then the unterminated bytes `rest`. -/
def frame (recs : List Bytes) (rest : Bytes) : Bytes :=
  (recs.map (· ++ [0])).flatten ++ rest

/-- Remove the leading bytes `lead` from `t`, when `t` starts with them. -/
def stripLead : Bytes → Bytes → Option Bytes
  | [], t => some t
  | _ :: _, [] => none
  | a :: lead, b :: t => if a = b then stripLead lead t else none

/-- The text of a log line: what follows `LOG: ` in an `OLA_INFO` line that
starts with it. -/
def logText : Output → Option Bytes
  | .INFO t => stripLead (ascii "LOG: ") t
  | _ => none

/-- The log lines among the output: the texts following `LOG: `, in order. -/
def logLines (out : List Output) : List Bytes := out.filterMap logText

/-- The two lines printed per record when the records `recs` are drained with
the cursor starting at `cursor`: the index line `[start, pos]`, then the log
line. -/
def recordLines (cursor : Nat) : List Bytes → List Output
  | [] => []
  | r :: rs =>
    .INFO (ascii "[" ++ decimal cursor ++ ascii ", " ++ decimal (cursor + r.length) ++ ascii "]") ::
    .INFO (ascii "LOG: " ++ r) ::
    recordLines (cursor + r.length + 1) rs

/-- The `SendMessage` calls of a trace, in order: the device addressed and the
command code. -/
def sends : List Action → List (Handle × Nat)
  | [] => []
  | .SendMessage dev cmd _ _ :: rest => (dev, cmd) :: sends rest
  | _ :: rest => sends rest

/-- The keys that need device I/O. -/
def deviceKeys : List Int := [key 'd', key 'e', key 'f', key 'l', key 'w']

/-- The command code a key stands for: d -> TX_DMX, e -> ECHO, f -> GET_FLAGS,
l -> GET_LOG, w -> WRITE_LOG; no command for any other key. -/
def keyCommand (P : Protocol) (c : Int) : Option Nat :=
  if c = key 'd' then some P.TX_DMX
  else if c = key 'e' then some P.ECHO_COMMAND
  else if c = key 'f' then some P.GET_FLAGS
  else if c = key 'l' then some P.GET_LOG
  else if c = key 'w' then some P.WRITE_LOG
  else none

/-- CurrentDevice after the events `before`: the handle of the most recent
DEVICE_ADDED not followed by a DEVICE_REMOVED, that is, of the last device
event when it is a DEVICE_ADDED; NONE otherwise. -/
def currentDevice (before : List Event) : Option Handle :=
  match before.reverse.find? (fun e => match e with
    | .device _ _ => true
    | .input _ => false) with
  | some (.device .DEVICE_ADDED dev) => some dev
  | _ => none

/-- The `SendMessage` calls the specification expects for the events `evs`
that arrive after the events `before`: one per keystroke in d, e, f, l, w
pressed while CurrentDevice is PRESENT, addressed to the current device, in
keystroke order. -/
def expectedSends (P : Protocol) (before : List Event) : List Event → List (Handle × Nat)
  | [] => []
  | e :: rest =>
    (match e with
     | .input c =>
       (match keyCommand P c, currentDevice before with
        | some cmd, some dev => [(dev, cmd)]
        | _, _ => [])
     | .device _ _ => []) ++ expectedSends P (before ++ [e]) rest

/-- The ASCII bytes of `Log Test <N>, this is quite long`, with `N` in decimal. -/
def logTestPayload (n : Nat) : Bytes :=
  ascii ("Log Test " ++ toString n ++ ", this is quite long")

/-- The key a line of the help table is about: the character `k` of a line
` k - <text>` written to `cout`. -/
def helpKey : Action → Option Nat
  | .print (.COUT (32 :: k :: 32 :: 45 :: 32 :: _)) => some k
  | _ => none

/-- The characters `Input` recognises. -/
def recognisedKeys : List Int :=
  [key 'd', key 'e', key 'f', key 'h', key 'l', key 'q', key 'w']

end JaRule

namespace JaRule

/-! ## Splitting a stream at null bytes -/

theorem records_of_no_null (s : Bytes) (h : 0 ∉ s) : records s = [] := by
  have hs : s.splitOn 0 = [s] := by
    apply List.splitOnP_eq_single
    intro x hx hx0
    have : x = 0 := by simpa using hx0
    exact h (this ▸ hx)
  simp [records, hs]

theorem records_append_null (r t : Bytes) (h : 0 ∉ r) :
    records (r ++ 0 :: t) = r :: records t := by
  have hs : (r ++ 0 :: t).splitOn 0 = r :: t.splitOn 0 := by
    apply List.splitOnP_first
    · intro x hx hx0
      have : x = 0 := by simpa using hx0
      exact h (this ▸ hx)
    · simp
  have hne : t.splitOn 0 ≠ [] := List.splitOnP_ne_nil _ _
  simp only [records, hs]
  cases hL : t.splitOn 0 with
  | nil => exact absurd hL hne
  | cons a L => simp [List.dropLast]

theorem takeWhile_append_stop (p : Nat → Bool) (a : Bytes) (b : Nat) (c : Bytes)
    (hb : p b = false) : (a ++ b :: c).takeWhile p = a.takeWhile p := by
  induction a with
  | nil => simp [List.takeWhile, hb]
  | cons x a ih =>
    by_cases hx : p x = true
    · simp [List.takeWhile, hx, ih]
    · simp [List.takeWhile, hx]

theorem afterLastNull_of_no_null (s : Bytes) (h : 0 ∉ s) : afterLastNull s = s := by
  have : s.reverse.takeWhile (· != 0) = s.reverse := by
    rw [List.takeWhile_eq_self_iff]
    intro x hx
    have hx' : x ∈ s := List.mem_reverse.mp hx
    have : x ≠ 0 := fun h0 => h (h0 ▸ hx')
    simpa using this
  simp [afterLastNull, this]

theorem afterLastNull_append_null (r t : Bytes) :
    afterLastNull (r ++ 0 :: t) = afterLastNull t := by
  unfold afterLastNull
  have : (r ++ 0 :: t).reverse = t.reverse ++ 0 :: r.reverse := by simp
  rw [this, takeWhile_append_stop _ _ _ _ (by simp)]

theorem afterLastNull_no_null (s : Bytes) : 0 ∉ afterLastNull s := by
  intro h
  have h1 : (0 : Nat) ∈ s.reverse.takeWhile (· != 0) := by
    simpa [afterLastNull] using h
  have := List.mem_takeWhile_imp h1
  simp at this

theorem scan_eq_none (c : Nat) (l : Bytes) (h : scan c l = none) : c ∉ l := by
  induction l with
  | nil => simp
  | cons b rest ih =>
    unfold scan at h
    split at h
    · simp at h
    · rename_i hb
      have h' : scan c rest = none := by simpa using h
      simp only [List.mem_cons, not_or]
      exact ⟨fun e => hb e.symm, ih h'⟩

theorem scan_eq_some (c : Nat) (l : Bytes) (k : Nat) (h : scan c l = some k) :
    k < l.length ∧ l = l.take k ++ c :: l.drop (k + 1) ∧ c ∉ l.take k := by
  induction l generalizing k with
  | nil => simp [scan] at h
  | cons b rest ih =>
    unfold scan at h
    split at h
    · rename_i hb
      have hk : k = 0 := by simpa using h.symm
      subst hk
      simp [hb]
    · rename_i hb
      cases hs : scan c rest with
      | none => simp [hs] at h
      | some j =>
        have hk : k = j + 1 := by simpa [hs] using h.symm
        subst hk
        obtain ⟨h1, h2, h3⟩ := ih j hs
        refine ⟨by simpa using h1, ?_, ?_⟩
        · simp only [List.take_succ_cons, List.drop_succ_cons, List.cons_append]
          exact congrArg (b :: ·) h2
        · simp only [List.take_succ_cons, List.mem_cons, not_or]
          exact ⟨fun e => hb e.symm, h3⟩

theorem first_null_cases (s : Bytes) :
    0 ∉ s ∨ ∃ r t, s = r ++ 0 :: t ∧ 0 ∉ r := by
  cases h : scan 0 s with
  | none => exact Or.inl (scan_eq_none 0 s h)
  | some k =>
    obtain ⟨_, h2, h3⟩ := scan_eq_some 0 s k h
    exact Or.inr ⟨s.take k, s.drop (k + 1), h2, h3⟩

theorem frame_nil (rest : Bytes) : frame [] rest = rest := by simp [frame]

theorem frame_cons (r : Bytes) (rs : List Bytes) (rest : Bytes) :
    frame (r :: rs) rest = r ++ 0 :: frame rs rest := by simp [frame]

theorem frame_append (rs rs' : List Bytes) (rest : Bytes) :
    frame (rs ++ rs') rest = frame rs (frame rs' rest) := by simp [frame]

theorem frame_nil_append (rs : List Bytes) (a b : Bytes) :
    frame rs a ++ b = frame rs (a ++ b) := by simp [frame]

/-- Every stream is its records, each with its terminator, followed by the bytes
after the last null; the records and that remainder hold no null. -/
theorem frame_records (s : Bytes) :
    s = frame (records s) (afterLastNull s) ∧ ∀ r ∈ records s, 0 ∉ r := by
  generalize hn : s.length = n
  induction n using Nat.strong_induction_on generalizing s with
  | _ n ih =>
    rcases first_null_cases s with h | ⟨r, t, hs, hr⟩
    · rw [records_of_no_null s h, afterLastNull_of_no_null s h]
      simp [frame]
    · have hlt : t.length < n := by
        rw [← hn, hs]; simp; omega
      obtain ⟨h1, h2⟩ := ih t.length hlt t rfl
      subst hs
      rw [records_append_null r t hr, afterLastNull_append_null, frame_cons]
      refine ⟨by rw [← h1], ?_⟩
      intro x hx
      rcases List.mem_cons.mp hx with rfl | hx
      · exact hr
      · exact h2 x hx

/-- A stream framed from null-free records and a null-free remainder has exactly
those records and that remainder. -/
theorem records_frame (recs : List Bytes) (rest : Bytes)
    (hr : ∀ r ∈ recs, 0 ∉ r) (ht : 0 ∉ rest) :
    records (frame recs rest) = recs ∧ afterLastNull (frame recs rest) = rest := by
  induction recs with
  | nil => exact ⟨by rw [frame_nil, records_of_no_null _ ht],
                  by rw [frame_nil, afterLastNull_of_no_null _ ht]⟩
  | cons r rs ih =>
    have hr' : ∀ x ∈ rs, 0 ∉ x := fun x hx => hr x (List.mem_cons_of_mem _ hx)
    obtain ⟨h1, h2⟩ := ih hr'
    have h0 : 0 ∉ r := hr r (List.mem_cons_self _ _)
    rw [frame_cons, records_append_null _ _ h0, afterLastNull_append_null, h1, h2]
    exact ⟨rfl, rfl⟩

/-- Records of a stream extended by a chunk: the records already complete, then
the records of the pending bytes followed by the chunk. -/
theorem records_append (s c : Bytes) :
    records (s ++ c) = records s ++ records (afterLastNull s ++ c) ∧
    afterLastNull (s ++ c) = afterLastNull (afterLastNull s ++ c) := by
  obtain ⟨hs, hsr⟩ := frame_records s
  obtain ⟨hc, hcr⟩ := frame_records (afterLastNull s ++ c)
  have hsc : s ++ c = frame (records s ++ records (afterLastNull s ++ c))
      (afterLastNull (afterLastNull s ++ c)) := by
    rw [frame_append, ← hc, ← frame_nil_append, ← hs]
  have hall : ∀ r ∈ records s ++ records (afterLastNull s ++ c), 0 ∉ r := by
    intro r hr
    rcases List.mem_append.mp hr with h | h
    · exact hsr r h
    · exact hcr r h
  have := records_frame _ _ hall (afterLastNull_no_null (afterLastNull s ++ c))
  rw [← hsc] at this
  exact this

/-! ## The drain loop of `PrintLog` -/

theorem erase_front (buf : Bytes) (n : Nat) : erase buf 0 n = .ok (buf.drop n) := by
  simp [erase]

theorem substr_in_range (buf : Bytes) (pos len : Nat) (h : pos ≤ buf.length) :
    substr buf pos len = .ok ((buf.drop pos).take len) := by
  simp [substr, Nat.not_lt.mpr h]

/-- With enough iterations paid for, the loop started at `start` prints the two
lines of every record of `buf[start..]` and leaves the bytes after the last
null in the buffer. -/
theorem drain_spec (fuel : Nat) (buf : Bytes) (start : Nat)
    (hstart : start ≤ buf.length) (hfuel : buf.length - start < fuel) :
    drain fuel buf start =
      .ok (recordLines start (records (buf.drop start)), afterLastNull (buf.drop start)) := by
  induction fuel generalizing start with
  | zero => omega
  | succ fuel ih =>
    unfold drain
    cases hscan : scan 0 (buf.drop start) with
    | none =>
      have h0 := scan_eq_none 0 _ hscan
      simp only [find_first_of, hscan, Option.map_none', erase_front]
      rw [records_of_no_null _ h0, afterLastNull_of_no_null _ h0]
      rfl
    | some k =>
      obtain ⟨hk, hsplit, hr⟩ := scan_eq_some 0 _ k hscan
      have hklen : k < buf.length - start := by simpa using hk
      have hrlen : ((buf.drop start).take k).length = k := by
        simp only [List.length_take, List.length_drop]; omega
      have hdrop : (buf.drop start).drop (k + 1) = buf.drop (k + start + 1) := by
        rw [List.drop_drop]; congr 1; omega
      have hrec : records (buf.drop start) =
          (buf.drop start).take k :: records (buf.drop (k + start + 1)) := by
        conv_lhs => rw [hsplit]
        rw [records_append_null _ _ hr, hdrop]
      have hafter : afterLastNull (buf.drop start) = afterLastNull (buf.drop (k + start + 1)) := by
        conv_lhs => rw [hsplit]
        rw [afterLastNull_append_null, hdrop]
      have hsub : substr buf start (k + start - start) = .ok ((buf.drop start).take k) := by
        rw [substr_in_range _ _ _ hstart]; simp
      simp only [find_first_of, hscan, Option.map_some', hsub]
      rw [hrec, hafter]
      by_cases hend : k + start + 1 = buf.length
      · have hnil : buf.drop (k + start + 1) = [] := by
          rw [hend]; exact List.drop_length buf
        rw [hnil, records_of_no_null [] (by simp), afterLastNull_of_no_null [] (by simp)]
        simp only [hend, if_true]
        simp only [recordLines, hrlen, Nat.add_comm start k]
      · simp only [hend, if_false]
        rw [ih (k + start + 1) (by omega) (by omega)]
        simp only [recordLines, hrlen, Nat.add_comm start k, List.cons_append, List.nil_append]

/-! ## Log lines among the output -/

theorem stripLead_append (lead t : Bytes) : stripLead lead (lead ++ t) = some t := by
  induction lead with
  | nil => simp [stripLead]
  | cons a lead ih => simp [stripLead, ih]

theorem logText_log (r : Bytes) : logText (.INFO (ascii "LOG: " ++ r)) = some r := by
  simp [logText, stripLead_append]

theorem logText_index (x : Bytes) : logText (.INFO (ascii "[" ++ x)) = none := by
  simp [logText, stripLead, ascii]

theorem logLines_append (a b : List Output) : logLines (a ++ b) = logLines a ++ logLines b := by
  simp [logLines]

theorem logLines_recordLines (cursor : Nat) (recs : List Bytes) :
    logLines (recordLines cursor recs) = recs := by
  induction recs generalizing cursor with
  | nil => rfl
  | cons r rs ih =>
    have h := ih (cursor + r.length + 1)
    simp only [logLines] at h ⊢
    simp only [recordLines, List.append_assoc]
    rw [List.filterMap_cons, logText_index, List.filterMap_cons, logText_log, h]

theorem length_recordLines (cursor : Nat) (recs : List Bytes) :
    (recordLines cursor recs).length = 2 * recs.length := by
  induction recs generalizing cursor with
  | nil => rfl
  | cons r rs ih => simp only [recordLines, List.length_cons, ih]; omega

theorem logLines_flagLines (P : Protocol) (flags : Nat) : logLines (flagLines P flags) = [] := by
  unfold flagLines
  simp only [logLines_append]
  split <;> split <;> split <;> simp [logLines, logText, stripLead, ascii]

theorem logLines_overflow (b : Bool) :
    logLines (if b then
      [.INFO (ascii "Log overflow occured, some messages have been lost")] else []) = [] := by
  cases b <;> simp [logLines, logText, stripLead, ascii]

theorem logLines_PrintEcho (m : Message) : logLines (PrintEcho m) = [] := by
  simp [PrintEcho, logLines, logText, stripLead, ascii]

theorem logLines_PrintAck (m : Message) : logLines (PrintAck m) = [] := by
  simp [PrintAck, logLines, logText, stripLead, ascii]

theorem logLines_PrintFlags (m : Message) : logLines (PrintFlags m) = [] := by
  unfold PrintFlags
  cases m.payload with
  | none => simp [logLines, logText, stripLead, ascii]
  | some p => by_cases h : m.payload_size = 0 <;> simp [logLines, logText, stripLead, ascii, h]

/-! ## `PrintLog` and `NewMessage` on one reply -/

theorem PrintLog_cons (h : MessageHandler) (d0 : Nat) (rest : Bytes) :
    PrintLog h (some (d0 :: rest)) =
      .ok (recordLines 0 (records (h.m_log_buffer ++ rest)) ++
            (if d0 != 0 then
              [.INFO (ascii "Log overflow occured, some messages have been lost")]
             else []),
           { m_log_buffer := afterLastNull (h.m_log_buffer ++ rest) }) := by
  have hd := drain_spec ((h.m_log_buffer ++ rest).length + 1) (h.m_log_buffer ++ rest) 0
    (Nat.zero_le _) (by omega)
  simp only [List.drop_zero] at hd
  simp only [PrintLog, hd]

theorem dispatch_GET_LOG (P : Protocol) (h : MessageHandler) (m : Message)
    (hc : m.command = P.GET_LOG) : dispatch P h m = PrintLog h m.payload := by
  have hd := P.distinct
  simp only [List.nodup_cons, List.mem_cons, List.mem_singleton, not_or] at hd
  have h1 : P.GET_LOG ≠ P.ECHO_COMMAND := fun e => hd.1.2.1 e.symm
  have h2 : P.GET_LOG ≠ P.TX_DMX := fun e => hd.2.1.1 e.symm
  simp [dispatch, hc, h1, h2]

theorem dispatch_other (P : Protocol) (h : MessageHandler) (m : Message)
    (hc : m.command ≠ P.GET_LOG) :
    ∃ out, dispatch P h m = .ok (out, h) ∧ logLines out = [] := by
  unfold dispatch
  rw [if_neg hc]
  by_cases h1 : m.command = P.ECHO_COMMAND
  · rw [if_pos h1]; exact ⟨_, rfl, logLines_PrintEcho m⟩
  rw [if_neg h1]
  by_cases h2 : m.command = P.TX_DMX
  · rw [if_pos h2]; exact ⟨_, rfl, logLines_PrintAck m⟩
  rw [if_neg h2]
  by_cases h3 : m.command = P.GET_FLAGS
  · rw [if_pos h3]; exact ⟨_, rfl, logLines_PrintFlags m⟩
  rw [if_neg h3]
  by_cases h4 : m.command = P.WRITE_LOG
  · rw [if_pos h4]; exact ⟨_, rfl, logLines_PrintAck m⟩
  rw [if_neg h4]
  exact ⟨_, rfl, by simp [logLines, logText]⟩

theorem logLines_malformed :
    logLines [.WARN (ascii "Malformed logs response")] = [] := by
  simp [logLines, logText]

/-- One reply, decoded with a null-free buffer: the log lines printed are the
records of buffer followed by chunk, and the buffer keeps what follows the last
null. -/
theorem NewMessage_log (P : Protocol) (h : MessageHandler) (m : Message)
    (h0 : 0 ∉ h.m_log_buffer) :
    ∃ out, NewMessage P h m =
        .ok (out, { m_log_buffer := afterLastNull (h.m_log_buffer ++ chunk P m) }) ∧
      logLines out = records (h.m_log_buffer ++ chunk P m) := by
  by_cases hc : m.command = P.GET_LOG
  · have hchunk : chunk P m = (m.payload.getD []).drop 1 := by simp [chunk, hc]
    unfold NewMessage
    rw [dispatch_GET_LOG P h m hc, hchunk]
    cases hp : m.payload with
    | none =>
      simp only [PrintLog, Option.getD_none, List.drop_nil, List.append_nil]
      rw [afterLastNull_of_no_null _ h0, records_of_no_null _ h0]
      exact ⟨_, rfl, by rw [logLines_append, logLines_malformed, logLines_flagLines]; rfl⟩
    | some p =>
      cases p with
      | nil =>
        simp only [PrintLog, Option.getD_some, List.drop_nil, List.append_nil]
        rw [afterLastNull_of_no_null _ h0, records_of_no_null _ h0]
        exact ⟨_, rfl, by rw [logLines_append, logLines_malformed, logLines_flagLines]; rfl⟩
      | cons d0 rest =>
        rw [PrintLog_cons]
        simp only [Option.getD_some, List.drop_succ_cons, List.drop_zero]
        refine ⟨_, rfl, ?_⟩
        rw [logLines_append, logLines_append, logLines_recordLines, logLines_overflow,
          logLines_flagLines]
        simp
  · have hchunk : chunk P m = [] := by simp [chunk, hc]
    obtain ⟨out, hd, hl⟩ := dispatch_other P h m hc
    unfold NewMessage
    rw [hd, hchunk, List.append_nil, afterLastNull_of_no_null _ h0, records_of_no_null _ h0]
    exact ⟨_, rfl, by rw [logLines_append, hl, logLines_flagLines]; rfl⟩

theorem logStream_cons (P : Protocol) (m : Message) (ms : List Message) :
    logStream P (m :: ms) = chunk P m ++ logStream P ms := by
  by_cases hc : m.command = P.GET_LOG <;> simp [logStream, chunk, hc, List.filter_cons]

/-- A sequence of replies, decoded from a null-free buffer: the log lines
printed are the records of buffer followed by the log stream, and the buffer
keeps what follows the last null. -/
theorem NewMessages_log (P : Protocol) (ms : List Message) (h : MessageHandler)
    (h0 : 0 ∉ h.m_log_buffer) :
    ∃ out, NewMessages P h ms =
        .ok (out, { m_log_buffer := afterLastNull (h.m_log_buffer ++ logStream P ms) }) ∧
      logLines out = records (h.m_log_buffer ++ logStream P ms) := by
  induction ms generalizing h with
  | nil =>
    refine ⟨[], ?_, ?_⟩
    · simp [NewMessages, logStream, afterLastNull_of_no_null _ h0]
    · simp [logStream, records_of_no_null _ h0, logLines]
  | cons m ms ih =>
    obtain ⟨out, hm, hl⟩ := NewMessage_log P h m h0
    obtain ⟨outs, hms, hls⟩ :=
      ih { m_log_buffer := afterLastNull (h.m_log_buffer ++ chunk P m) }
        (afterLastNull_no_null _)
    obtain ⟨hr, ha⟩ := records_append (h.m_log_buffer ++ chunk P m) (logStream P ms)
    refine ⟨out ++ outs, ?_, ?_⟩
    · simp only [NewMessages, hm, hms, logStream_cons]
      rw [← List.append_assoc, ha]
    · rw [logLines_append, hl, hls, logStream_cons, ← List.append_assoc, hr]

theorem count_null_frame (recs : List Bytes) (rest : Bytes)
    (hr : ∀ r ∈ recs, 0 ∉ r) (ht : 0 ∉ rest) :
    (frame recs rest).count 0 = recs.length := by
  induction recs with
  | nil => rw [frame_nil]; simpa using List.count_eq_zero_of_not_mem ht
  | cons r rs ih =>
    have hr' : ∀ x ∈ rs, 0 ∉ x := fun x hx => hr x (List.mem_cons_of_mem _ hx)
    have h0 : 0 ∉ r := hr r (List.mem_cons_self _ _)
    rw [frame_cons, List.count_append, List.count_cons_self, ih hr',
      List.count_eq_zero_of_not_mem h0]
    simp

/-- A stream has as many records as null bytes. -/
theorem length_records (s : Bytes) : (records s).length = s.count 0 := by
  obtain ⟨hs, hr⟩ := frame_records s
  conv_rhs => rw [hs]
  rw [count_null_frame _ _ hr (afterLastNull_no_null s)]

theorem logStream_all_GET_LOG (P : Protocol) (ms : List Message)
    (hlog : ∀ m ∈ ms, m.command = P.GET_LOG) :
    logStream P ms = (ms.map (fun m => (m.payload.getD []).drop 1)).flatten := by
  have : ms.filter (fun m => m.command = P.GET_LOG) = ms := by
    rw [List.filter_eq_self]
    intro m hm
    simpa using hlog m hm
  simp only [logStream, this]

theorem afterLastNull_of_ends_null (s : Bytes) (h : s.getLast? = some 0) :
    afterLastNull s = [] := by
  obtain ⟨t, ht⟩ : ∃ t, s = t ++ [0] := by
    rcases List.eq_nil_or_concat s with h0 | ⟨t, b, hb⟩
    · simp [h0] at h
    · refine ⟨t, ?_⟩
      rw [hb, List.concat_eq_append] at h ⊢
      have : b = 0 := by simpa using h
      rw [this]
  rw [ht, afterLastNull_append_null]
  rfl

/-! ## Keystrokes and device events -/

theorem sends_append (a b : List Action) : sends (a ++ b) = sends a ++ sends b := by
  induction a with
  | nil => rfl
  | cons x a ih => cases x <;> simp [sends, ih]

theorem Input_not_deviceKey (P : Protocol) (s : InputHandler) (c : Int)
    (hc : c ∉ deviceKeys) :
    Input P s c =
      (if c = key 'h' then PrintCommands else if c = key 'q' then [.Terminate] else [], s) := by
  simp only [deviceKeys, List.mem_cons, List.mem_singleton, not_or, List.not_mem_nil,
    not_false_eq_true, and_true] at hc
  obtain ⟨hd, he, hf, hl, hw⟩ := hc
  unfold Input
  rw [if_neg hd, if_neg he, if_neg hf, if_neg hl, if_neg hw]
  by_cases hh : c = key 'h'
  · rw [if_pos hh, if_pos hh]
  · rw [if_neg hh, if_neg hh]
    by_cases hq : c = key 'q'
    · rw [if_pos hq, if_pos hq]
    · rw [if_neg hq, if_neg hq]

theorem keyCommand_not_deviceKey (P : Protocol) (c : Int) (hc : c ∉ deviceKeys) :
    keyCommand P c = none := by
  simp only [deviceKeys, List.mem_cons, List.mem_singleton, not_or, List.not_mem_nil,
    not_false_eq_true, and_true] at hc
  obtain ⟨hd, he, hf, hl, hw⟩ := hc
  simp [keyCommand, hd, he, hf, hl, hw]

theorem keyCommand_deviceKey (P : Protocol) (c : Int) (hc : c ∈ deviceKeys) :
    ∃ cmd, keyCommand P c = some cmd := by
  simp only [deviceKeys, List.mem_cons, List.mem_singleton, List.not_mem_nil, or_false] at hc
  rcases hc with h | h | h | h | h <;> subst h <;> simp [keyCommand, key]

theorem sends_PrintCommands : sends PrintCommands = [] := by
  simp [PrintCommands, sends]

/-- A key that needs the device, pressed with no device: only the notice. -/
theorem Input_no_device (P : Protocol) (s : InputHandler) (c : Int)
    (hc : c ∈ deviceKeys) (hdev : s.m_device = none) :
    Input P s c = ([.print (.INFO (ascii "Device not present"))], s) := by
  simp only [deviceKeys, List.mem_cons, List.mem_singleton, List.not_mem_nil, or_false] at hc
  rcases hc with h | h | h | h | h <;> subst h <;>
    simp [Input, key, SendDMX, SendEcho, GetFlags, GetLogs, WriteLog, CheckForDevice, hdev]

/-- A key that needs the device, pressed with the device `dev` present: one
`SendMessage` to `dev` with the command of the key, and nothing else. -/
theorem Input_device (P : Protocol) (s : InputHandler) (c : Int) (dev : Handle)
    (hc : c ∈ deviceKeys) (hdev : s.m_device = some dev) :
    ∃ cmd data size, keyCommand P c = some cmd ∧
      (Input P s c).1 = [.SendMessage dev cmd data size] := by
  simp only [deviceKeys, List.mem_cons, List.mem_singleton, List.not_mem_nil, or_false] at hc
  rcases hc with h | h | h | h | h <;> subst h <;>
    simp [Input, key, keyCommand, SendDMX, SendEcho, GetFlags, GetLogs, WriteLog,
      CheckForDevice, hdev]

theorem Input_sends (P : Protocol) (s : InputHandler) (c : Int) :
    sends (Input P s c).1 =
      (match keyCommand P c, s.m_device with
       | some cmd, some dev => [(dev, cmd)]
       | _, _ => []) := by
  by_cases hc : c ∈ deviceKeys
  · cases hdev : s.m_device with
    | none =>
      rw [Input_no_device P s c hc hdev]
      obtain ⟨cmd, hcmd⟩ := keyCommand_deviceKey P c hc
      simp [sends, hcmd]
    | some dev =>
      obtain ⟨cmd, data, size, hcmd, hin⟩ := Input_device P s c dev hc hdev
      rw [hin, hcmd]
      simp [sends]
  · rw [Input_not_deviceKey P s c hc, keyCommand_not_deviceKey P c hc]
    by_cases hh : c = key 'h'
    · simp [hh, sends_PrintCommands]
    · by_cases hq : c = key 'q' <;> simp [hh, hq, sends]

theorem Input_m_device (P : Protocol) (s : InputHandler) (c : Int) :
    (Input P s c).2.m_device = s.m_device := by
  by_cases hc : c ∈ deviceKeys
  · cases hdev : s.m_device with
    | none => rw [Input_no_device P s c hc hdev]; exact hdev
    | some dev =>
      simp only [deviceKeys, List.mem_cons, List.mem_singleton, List.not_mem_nil, or_false] at hc
      rcases hc with h | h | h | h | h <;> subst h <;>
        simp [Input, key, SendDMX, SendEcho, GetFlags, GetLogs, WriteLog, CheckForDevice, hdev]
  · rw [Input_not_deviceKey P s c hc]

theorem currentDevice_snoc (before : List Event) (e : Event) :
    currentDevice (before ++ [e]) =
      (match e with
       | .device .DEVICE_ADDED dev => some dev
       | .device .DEVICE_REMOVED _ => none
       | .input _ => currentDevice before) := by
  cases e with
  | device ev dev => cases ev <;> simp [currentDevice]
  | input c => simp [currentDevice]

theorem handle_m_device (P : Protocol) (s : InputHandler) (before : List Event) (e : Event)
    (hs : s.m_device = currentDevice before) :
    (handle P s e).2.m_device = currentDevice (before ++ [e]) := by
  rw [currentDevice_snoc]
  cases e with
  | device ev dev => cases ev <;> simp [handle, DeviceEvent]
  | input c => simp only [handle]; rw [Input_m_device, hs]

theorem run_sends (P : Protocol) (evs : List Event) (s : InputHandler) (before : List Event)
    (hs : s.m_device = currentDevice before) :
    sends (run P s evs).1 = expectedSends P before evs ∧
      (run P s evs).2.m_device = currentDevice (before ++ evs) := by
  induction evs generalizing s before with
  | nil => simp [run, expectedSends, sends, hs]
  | cons e evs ih =>
    obtain ⟨h1, h2⟩ := ih (handle P s e).2 (before ++ [e]) (handle_m_device P s before e hs)
    simp only [run, expectedSends, sends_append, h1]
    refine ⟨?_, by rw [h2]; simp⟩
    congr 1
    cases e with
    | device ev dev => cases ev <;> simp [handle, DeviceEvent, sends]
    | input c => simp only [handle]; rw [Input_sends, hs]

theorem logTestPayload_eq (n : Nat) :
    logTestPayload n = ascii "Log Test " ++ decimal n ++ ascii ", this is quite long" := by
  simp [logTestPayload, ascii, decimal, toString, Nat.repr, List.asString]

/-- The key `w` with the device `dev` present. -/
theorem Input_write_log (P : Protocol) (s : InputHandler) (dev : Handle)
    (hdev : s.m_device = some dev) :
    Input P s (key 'w') =
      ([.SendMessage dev P.WRITE_LOG (some (logTestPayload s.m_log_count))
          (logTestPayload s.m_log_count).length],
       { s with m_log_count := (s.m_log_count + 1) % UINT_RANGE }) := by
  rw [logTestPayload_eq]
  simp [Input, key, WriteLog, CheckForDevice, hdev]

/-- Consecutive `w` keystrokes with a device present: the counter values sent
are the successive values of the counter, modulo the range of `unsigned int`. -/
theorem run_write_logs (P : Protocol) (k : Nat) (s : InputHandler) (dev : Handle)
    (hdev : s.m_device = some dev) (hn : s.m_log_count < UINT_RANGE) :
    (run P s (List.replicate k (.input (key 'w')))).1 =
      (List.range k).map (fun i =>
        Action.SendMessage dev P.WRITE_LOG
          (some (logTestPayload ((s.m_log_count + i) % UINT_RANGE)))
          (logTestPayload ((s.m_log_count + i) % UINT_RANGE)).length) := by
  induction k generalizing s with
  | zero => simp [run]
  | succ k ih =>
    have hpos : 0 < UINT_RANGE := by decide
    have hstep := Input_write_log P s dev hdev
    have ih' := ih { s with m_log_count := (s.m_log_count + 1) % UINT_RANGE } hdev
      (Nat.mod_lt _ hpos)
    simp only [List.replicate_succ, run, handle, hstep, ih', List.range_succ_eq_map,
      List.map_cons, List.map_map, List.singleton_append, Nat.add_zero, Nat.mod_eq_of_lt hn]
    congr 1
    apply List.map_congr_left
    intro i _
    have : ((s.m_log_count + 1) % UINT_RANGE + i) % UINT_RANGE =
        (s.m_log_count + (i + 1)) % UINT_RANGE := by
      rw [Nat.add_mod, Nat.mod_mod, ← Nat.add_mod]; congr 1; omega
    simp only [Function.comp, this, Nat.succ_eq_add_one]

/-! ## Flag lines -/

/-- The texts of the three informational flag lines. -/
theorem flagTexts_not_mem_recordLines (cursor : Nat) (recs : List Bytes) (t : Bytes)
    (ht : t ∈ [ascii "Logs pending!", ascii "Flags changed!", ascii "Message truncated"]) :
    Output.INFO t ∉ recordLines cursor recs := by
  induction recs generalizing cursor with
  | nil => simp [recordLines]
  | cons r rs ih =>
    have hrest := ih (cursor + r.length + 1)
    simp only [List.mem_cons, List.mem_singleton, List.not_mem_nil, or_false] at ht
    simp only [recordLines, List.mem_cons, not_or]
    refine ⟨?_, ?_, hrest⟩ <;> rcases ht with h | h | h <;> subst h <;> simp [ascii]

/-- The command-specific part of `NewMessage` always completes, and prints none
of the three flag lines. -/
theorem dispatch_body (P : Protocol) (h : MessageHandler) (m : Message) :
    ∃ body h', dispatch P h m = .ok (body, h') ∧
      ∀ t ∈ [ascii "Logs pending!", ascii "Flags changed!", ascii "Message truncated"],
        Output.INFO t ∉ body := by
  by_cases hc : m.command = P.GET_LOG
  · rw [dispatch_GET_LOG P h m hc]
    cases hp : m.payload with
    | none => exact ⟨_, _, rfl, by simp⟩
    | some p =>
      cases p with
      | nil => exact ⟨_, _, rfl, by simp⟩
      | cons d0 rest =>
        rw [PrintLog_cons]
        refine ⟨_, _, rfl, ?_⟩
        intro t ht
        rw [List.mem_append, not_or]
        refine ⟨flagTexts_not_mem_recordLines _ _ t ht, ?_⟩
        simp only [List.mem_cons, List.mem_singleton, List.not_mem_nil, or_false] at ht
        rcases ht with e | e | e <;> subst e <;> cases (d0 != 0) <;> simp [ascii]
  · unfold dispatch
    rw [if_neg hc]
    by_cases h1 : m.command = P.ECHO_COMMAND
    · rw [if_pos h1]
      refine ⟨_, _, rfl, ?_⟩
      intro t ht
      simp only [List.mem_cons, List.mem_singleton, List.not_mem_nil, or_false] at ht
      rcases ht with e | e | e <;> subst e <;> simp [PrintEcho, ascii]
    rw [if_neg h1]
    have hack : ∀ t ∈ [ascii "Logs pending!", ascii "Flags changed!",
        ascii "Message truncated"], Output.INFO t ∉ PrintAck m := by
      intro t ht
      simp only [List.mem_cons, List.mem_singleton, List.not_mem_nil, or_false] at ht
      rcases ht with e | e | e <;> subst e <;> simp [PrintAck, ascii]
    by_cases h2 : m.command = P.TX_DMX
    · rw [if_pos h2]; exact ⟨_, _, rfl, hack⟩
    rw [if_neg h2]
    by_cases h3 : m.command = P.GET_FLAGS
    · rw [if_pos h3]
      refine ⟨_, _, rfl, ?_⟩
      intro t ht
      simp only [List.mem_cons, List.mem_singleton, List.not_mem_nil, or_false] at ht
      unfold PrintFlags
      rcases ht with e | e | e <;> subst e <;> cases m.payload <;> simp [ascii]
    rw [if_neg h3]
    by_cases h4 : m.command = P.WRITE_LOG
    · rw [if_pos h4]; exact ⟨_, _, rfl, hack⟩
    rw [if_neg h4]
    exact ⟨_, _, rfl, by simp⟩

/-! ## Claims -/

/-- C1 (L1): for every sequence of GET_LOG replies decoded by `NewMessage` from
an empty `m_log_buffer`, the decode succeeds and the log lines printed (the
texts following `LOG: `) are, in order, the null-terminated records of the
stream obtained by concatenating `payload[1..]` of the replies; the bytes after
the last null of the stream are not printed. -/
theorem C1_log_lines_are_records (P : Protocol) (ms : List Message)
    (hlog : ∀ m ∈ ms, m.command = P.GET_LOG) :
    ∃ out h', NewMessages P { m_log_buffer := [] } ms = .ok (out, h') ∧
      logLines out = records ((ms.map (fun m => (m.payload.getD []).drop 1)).flatten) := by
  obtain ⟨out, hrun, hl⟩ := NewMessages_log P ms { m_log_buffer := [] } (by simp)
  refine ⟨out, _, hrun, ?_⟩
  rw [hl, logStream_all_GET_LOG P ms hlog]
  rfl

/-- C1 at the payloads `[0,a,b,c]` then `[0,d,0,e,f,0]`: the records are `abcd`
and `ef`. -/
theorem C1_log_lines_are_records_witness :
    (∀ m ∈ [(⟨0x82, 0, 0, some [0, 97, 98, 99]⟩ : Message),
            ⟨0x82, 0, 0, some [0, 100, 0, 101, 102, 0]⟩], m.command = sampleProtocol.GET_LOG) ∧
    (∃ out h', NewMessages sampleProtocol { m_log_buffer := [] }
        [⟨0x82, 0, 0, some [0, 97, 98, 99]⟩, ⟨0x82, 0, 0, some [0, 100, 0, 101, 102, 0]⟩] =
          .ok (out, h') ∧
      logLines out = records (([(⟨0x82, 0, 0, some [0, 97, 98, 99]⟩ : Message),
        ⟨0x82, 0, 0, some [0, 100, 0, 101, 102, 0]⟩].map
          (fun m => (m.payload.getD []).drop 1)).flatten)) ∧
    records (([(⟨0x82, 0, 0, some [0, 97, 98, 99]⟩ : Message),
        ⟨0x82, 0, 0, some [0, 100, 0, 101, 102, 0]⟩].map
          (fun m => (m.payload.getD []).drop 1)).flatten) = [ascii "abcd", ascii "ef"] :=
  ⟨by decide, C1_log_lines_are_records sampleProtocol _ (by decide), by decide⟩

/-- C2 (buffer invariant, L2): after any sequence of replies decoded from an
empty `m_log_buffer`, the buffer is exactly the part of the cumulative log
stream (the `payload[1..]` of the GET_LOG replies) that follows its last null
byte, or the whole stream when it has no null; so the buffer holds no null
byte, and it is empty when the stream ends on a null. -/
theorem C2_buffer_is_unterminated_suffix (P : Protocol) (ms : List Message) :
    ∃ out h', NewMessages P { m_log_buffer := [] } ms = .ok (out, h') ∧
      h'.m_log_buffer = afterLastNull (logStream P ms) ∧
      (0 ∉ logStream P ms → h'.m_log_buffer = logStream P ms) ∧
      0 ∉ h'.m_log_buffer ∧
      ((logStream P ms).getLast? = some 0 → h'.m_log_buffer = []) := by
  obtain ⟨out, hrun, _⟩ := NewMessages_log P ms { m_log_buffer := [] } (by simp)
  simp only [List.nil_append] at hrun
  exact ⟨out, _, hrun, rfl, fun h => afterLastNull_of_no_null _ h,
    afterLastNull_no_null _, fun h => afterLastNull_of_ends_null _ h⟩

/-- C3, as stated, fails: decoding the payloads `[0,a,b,c]` then `[0,d,0,e,f,0]`
(no overflow, no flag set) prints four lines for the two records, an index line
before each log line. -/
theorem C3_counterexample :
    NewMessages sampleProtocol { m_log_buffer := [] }
        [⟨0x82, 0, 0, some [0, 97, 98, 99]⟩, ⟨0x82, 0, 0, some [0, 100, 0, 101, 102, 0]⟩] =
      .ok ([.INFO (ascii "[0, 4]"), .INFO (ascii "LOG: abcd"),
            .INFO (ascii "[5, 7]"), .INFO (ascii "LOG: ef")], { m_log_buffer := [] }) ∧
    records [97, 98, 99, 100, 0, 101, 102, 0] = [ascii "abcd", ascii "ef"] ∧
    ¬ ∃ h', NewMessages sampleProtocol { m_log_buffer := [] }
        [⟨0x82, 0, 0, some [0, 97, 98, 99]⟩, ⟨0x82, 0, 0, some [0, 100, 0, 101, 102, 0]⟩] =
      .ok ([.INFO (ascii "LOG: abcd"), .INFO (ascii "LOG: ef")], h') := by
  refine ⟨by decide, by decide, ?_⟩
  rintro ⟨h', hh⟩
  have h4 : NewMessages sampleProtocol { m_log_buffer := [] }
        [⟨0x82, 0, 0, some [0, 97, 98, 99]⟩, ⟨0x82, 0, 0, some [0, 100, 0, 101, 102, 0]⟩] =
      .ok ([.INFO (ascii "[0, 4]"), .INFO (ascii "LOG: abcd"),
            .INFO (ascii "[5, 7]"), .INFO (ascii "LOG: ef")], { m_log_buffer := [] }) := by
    decide
  rw [h4] at hh
  have hlen := congrArg (fun r => match r with
    | Except.ok (o, _) => o.length
    | Except.error _ => 0) hh
  simp at hlen

/-- C3, amended: for every GET_LOG reply with a non-empty payload and every
buffer, the decode prints, for each null byte of the buffer (after the append),
exactly two lines, the index line `[cursor, p]` and then the record
`[cursor, p)` as one log line `LOG: <record>`, followed by the optional
overflow notice and the flag lines; so the record lines are twice as many as
the records drained, and the log lines among them are exactly the records. -/
theorem C3_two_lines_per_record (P : Protocol) (h : MessageHandler)
    (rc flags d0 : Nat) (rest : Bytes) :
    NewMessage P h ⟨P.GET_LOG, rc, flags, some (d0 :: rest)⟩ =
      .ok (recordLines 0 (records (h.m_log_buffer ++ rest)) ++
            (if d0 != 0 then
              [.INFO (ascii "Log overflow occured, some messages have been lost")]
             else []) ++ flagLines P flags,
           { m_log_buffer := afterLastNull (h.m_log_buffer ++ rest) }) ∧
    (records (h.m_log_buffer ++ rest)).length = (h.m_log_buffer ++ rest).count 0 ∧
    (recordLines 0 (records (h.m_log_buffer ++ rest))).length =
      2 * (h.m_log_buffer ++ rest).count 0 ∧
    logLines (recordLines 0 (records (h.m_log_buffer ++ rest))) =
      records (h.m_log_buffer ++ rest) := by
  refine ⟨?_, length_records _, ?_, logLines_recordLines _ _⟩
  · unfold NewMessage
    rw [dispatch_GET_LOG P h _ rfl, PrintLog_cons]
  · rw [length_recordLines, length_records]

/-- C4: for every interleaved sequence of device events and keystrokes applied
to the initial state (no device), the trace of `SendMessage` calls is, in
keystroke order, exactly one message per keystroke in d, e, f, l, w pressed
while CurrentDevice was PRESENT, addressed to the handle of the most recent
DEVICE_ADDED not followed by a DEVICE_REMOVED, with the command codes
d -> TX_DMX, e -> ECHO, f -> GET_FLAGS, l -> GET_LOG, w -> WRITE_LOG; the device
slot follows the device events; and no keystroke sends anything while
CurrentDevice is NONE. -/
theorem C4_send_trace (P : Protocol) (evs : List Event) :
    sends (run P InputHandler.init evs).1 = expectedSends P [] evs ∧
    (run P InputHandler.init evs).2.m_device = currentDevice evs ∧
    (∀ (s : InputHandler) (c : Int), s.m_device = none → sends (Input P s c).1 = []) := by
  obtain ⟨h1, h2⟩ := run_sends P evs InputHandler.init [] rfl
  refine ⟨h1, by simpa using h2, ?_⟩
  intro s c hs
  rw [Input_sends, hs]
  cases keyCommand P c <;> rfl

/-- C4 on a session: `e` before any device, device 7 added, `w`, `d`, `h`,
device 9 added, `l`, device removed, `f`: the sends are WRITE_LOG and TX_DMX to
device 7, then GET_LOG to device 9. -/
theorem C4_send_trace_witness :
    sends (run sampleProtocol InputHandler.init
      [.input (key 'e'), .device .DEVICE_ADDED 7, .input (key 'w'), .input (key 'd'),
       .input (key 'h'), .device .DEVICE_ADDED 9, .input (key 'l'),
       .device .DEVICE_REMOVED 9, .input (key 'f')]).1 = [(7, 0x84), (7, 0x81), (9, 0x82)] :=
  (C4_send_trace sampleProtocol _).1.trans (by decide)

/-- C5 (D1), as stated, fails: with a device present the keystroke `h` sends
nothing. -/
theorem C5_counterexample :
    ({ m_handler := { m_log_buffer := [] }, m_device := some 1, m_log_count := 0 }
        : InputHandler).m_device ≠ none ∧
    sends (Input sampleProtocol
      { m_handler := { m_log_buffer := [] }, m_device := some 1, m_log_count := 0 }
      (key 'h')).1 = [] := by
  decide

/-- C5 (D1), amended: for every keystroke and every session state, `Input` calls
`SendMessage` if and only if CurrentDevice is PRESENT at the moment of the
keystroke and the key is one of d, e, f, l, w; it never calls it more than
once. -/
theorem C5_send_iff_present_and_device_key (P : Protocol) (s : InputHandler) (c : Int) :
    (sends (Input P s c).1 ≠ [] ↔ (s.m_device ≠ none ∧ c ∈ deviceKeys)) ∧
    (sends (Input P s c).1).length ≤ 1 := by
  rw [Input_sends]
  by_cases hc : c ∈ deviceKeys
  · obtain ⟨cmd, hcmd⟩ := keyCommand_deviceKey P c hc
    rw [hcmd]
    cases s.m_device <;> simp [hc]
  · rw [keyCommand_not_deviceKey P c hc]
    simp [hc]

/-- C6 (pre-check): for every key in d, e, f, l, w, when CurrentDevice is NONE
`Input` prints exactly the line `Device not present`, calls no `SendMessage`,
and leaves the state, CurrentDevice included, as it was. -/
theorem C6_no_device_precheck (P : Protocol) (s : InputHandler) (c : Int)
    (hc : c ∈ deviceKeys) (hdev : s.m_device = none) :
    Input P s c = ([.print (.INFO (ascii "Device not present"))], s) ∧
    sends (Input P s c).1 = [] ∧
    (Input P s c).2.m_device = none := by
  rw [Input_no_device P s c hc hdev]
  exact ⟨rfl, rfl, hdev⟩

/-- C6 at the keystroke `e` in the initial state (no device). -/
theorem C6_no_device_precheck_witness :
    key 'e' ∈ deviceKeys ∧ InputHandler.init.m_device = none ∧
    Input sampleProtocol InputHandler.init (key 'e') =
      ([.print (.INFO (ascii "Device not present"))], InputHandler.init) ∧
    sends (Input sampleProtocol InputHandler.init (key 'e')).1 = [] ∧
    (Input sampleProtocol InputHandler.init (key 'e')).2.m_device = none :=
  ⟨by decide, rfl, C6_no_device_precheck sampleProtocol InputHandler.init (key 'e')
    (by decide) rfl⟩

/-- C7, as stated, fails at the counter value `UINT_MAX`: the keystroke `w`
with a device present leaves the counter at 0, not at `UINT_MAX + 1`. -/
theorem C7_counterexample :
    (Input sampleProtocol
      { m_handler := { m_log_buffer := [] }, m_device := some 1, m_log_count := 4294967295 }
      (key 'w')).2.m_log_count = 0 ∧
    (Input sampleProtocol
      { m_handler := { m_log_buffer := [] }, m_device := some 1, m_log_count := 4294967295 }
      (key 'w')).2.m_log_count ≠ 4294967295 + 1 := by
  have h := Input_write_log sampleProtocol
    { m_handler := { m_log_buffer := [] }, m_device := some 1, m_log_count := 4294967295 } 1 rfl
  rw [h]
  exact ⟨by decide, by decide⟩

/-- C7 (write-log counter), amended: with a device present the keystroke `w`
sends WRITE_LOG with payload exactly the ASCII bytes of
`Log Test <N>, this is quite long` (decimal N, no terminator, size the string
length) for the counter value N, and leaves the counter at N+1 when N is below
`UINT_MAX` and at 0 when N is `UINT_MAX`; so k consecutive `w` keystrokes after
a device was added to the initial state, for k up to 2^32, send the payloads
for N = 0, 1, ..., k-1 in that order. -/
theorem C7_write_log_counter (P : Protocol) (s : InputHandler) (dev : Handle)
    (hdev : s.m_device = some dev) :
    (Input P s (key 'w')).1 =
      [.SendMessage dev P.WRITE_LOG (some (logTestPayload s.m_log_count))
        (logTestPayload s.m_log_count).length] ∧
    (s.m_log_count + 1 < UINT_RANGE →
      (Input P s (key 'w')).2.m_log_count = s.m_log_count + 1) ∧
    (s.m_log_count + 1 = UINT_RANGE → (Input P s (key 'w')).2.m_log_count = 0) ∧
    (∀ k, k ≤ UINT_RANGE →
      (run P (DeviceEvent InputHandler.init .DEVICE_ADDED dev).2
          (List.replicate k (.input (key 'w')))).1 =
        (List.range k).map (fun i =>
          Action.SendMessage dev P.WRITE_LOG (some (logTestPayload i))
            (logTestPayload i).length)) := by
  rw [Input_write_log P s dev hdev]
  refine ⟨rfl, fun h => Nat.mod_eq_of_lt h, fun h => ?_, fun k hk => ?_⟩
  · show (s.m_log_count + 1) % UINT_RANGE = 0
    rw [h, Nat.mod_self]
  · rw [run_write_logs P k _ dev (by simp [DeviceEvent])
      (by simp [DeviceEvent, InputHandler.init, UINT_RANGE])]
    apply List.map_congr_left
    intro i hi
    have hi' : i < UINT_RANGE := Nat.lt_of_lt_of_le (List.mem_range.mp hi) hk
    have : (DeviceEvent InputHandler.init .DEVICE_ADDED dev).2.m_log_count = 0 := by
      simp [DeviceEvent, InputHandler.init]
    rw [this, Nat.zero_add, Nat.mod_eq_of_lt hi']

/-- C7 at three `w` keystrokes after device 7 was added: the payloads are
`Log Test 0, this is quite long`, `Log Test 1, ...`, `Log Test 2, ...`. -/
theorem C7_write_log_counter_witness :
    (run sampleProtocol (DeviceEvent InputHandler.init .DEVICE_ADDED 7).2
        (List.replicate 3 (.input (key 'w')))).1 =
      [.SendMessage 7 0x84 (some (ascii "Log Test 0, this is quite long")) 30,
       .SendMessage 7 0x84 (some (ascii "Log Test 1, this is quite long")) 30,
       .SendMessage 7 0x84 (some (ascii "Log Test 2, this is quite long")) 30] :=
  ((C7_write_log_counter sampleProtocol (DeviceEvent InputHandler.init .DEVICE_ADDED 7).2 7
    rfl).2.2.2 3 (by decide)).trans (by decide)

/-- C8, as stated, fails: the keystroke `w` with no device leaves LogCounter as
it was, not one greater. -/
theorem C8_counterexample :
    (Input sampleProtocol InputHandler.init (key 'w')).2.m_log_count = 0 ∧
    (Input sampleProtocol InputHandler.init (key 'w')).2.m_log_count ≠
      InputHandler.init.m_log_count + 1 := by
  decide

/-- C8 (LogCounter), amended: the keystroke `w` increments LogCounter, modulo
the range of `unsigned int`, when a device is present (so it is one greater
than before unless it was `UINT_MAX`), and leaves it unchanged when
CurrentDevice is NONE; no other operation changes it: no other keystroke, no
device event and no reply. -/
theorem C8_log_counter_steps (P : Protocol) (s : InputHandler) :
    (∀ dev, s.m_device = some dev →
      (Input P s (key 'w')).2.m_log_count = (s.m_log_count + 1) % UINT_RANGE ∧
      (s.m_log_count + 1 < UINT_RANGE →
        (Input P s (key 'w')).2.m_log_count = s.m_log_count + 1)) ∧
    (s.m_device = none → (Input P s (key 'w')).2.m_log_count = s.m_log_count) ∧
    (∀ c, c ≠ key 'w' → (Input P s c).2.m_log_count = s.m_log_count) ∧
    (∀ ev dev, (DeviceEvent s ev dev).2.m_log_count = s.m_log_count) ∧
    (∀ m, ∃ out s', deliver P s m = .ok (out, s') ∧ s'.m_log_count = s.m_log_count) := by
  refine ⟨fun dev hdev => by
      rw [Input_write_log P s dev hdev]; exact ⟨rfl, fun h => Nat.mod_eq_of_lt h⟩,
    fun hdev => ?_, fun c hc => ?_, fun ev dev => ?_, fun m => ?_⟩
  rotate_right
  · obtain ⟨body, h', hd, _⟩ := dispatch_body P s.m_handler m
    refine ⟨body ++ flagLines P m.flags, { s with m_handler := h' }, ?_, rfl⟩
    simp only [deliver, NewMessage, hd]
  · rw [Input_no_device P s _ (by decide) hdev]
  · by_cases hk : c ∈ deviceKeys
    · cases hdev : s.m_device with
      | none => rw [Input_no_device P s c hk hdev]
      | some dev =>
        simp only [deviceKeys, List.mem_cons, List.mem_singleton, List.not_mem_nil,
          or_false] at hk
        rcases hk with h | h | h | h | h
        · subst h; simp [Input, key, SendDMX, CheckForDevice, hdev]
        · subst h; simp [Input, key, SendEcho, CheckForDevice, hdev]
        · subst h; simp [Input, key, GetFlags, CheckForDevice, hdev]
        · subst h; simp [Input, key, GetLogs, CheckForDevice, hdev]
        · exact absurd h hc
    · rw [Input_not_deviceKey P s c hk]
  · cases ev <;> simp [DeviceEvent]

/-- C8 at counter value 5: `w` with device 7 present gives 6, `w` with no device
gives 5, and `d` with device 7 present gives 5. -/
theorem C8_log_counter_steps_witness :
    (Input sampleProtocol
      { m_handler := { m_log_buffer := [] }, m_device := some 7, m_log_count := 5 }
      (key 'w')).2.m_log_count = 6 ∧
    (Input sampleProtocol
      { m_handler := { m_log_buffer := [] }, m_device := none, m_log_count := 5 }
      (key 'w')).2.m_log_count = 5 ∧
    (Input sampleProtocol
      { m_handler := { m_log_buffer := [] }, m_device := some 7, m_log_count := 5 }
      (key 'd')).2.m_log_count = 5 :=
  ⟨((C8_log_counter_steps sampleProtocol
      { m_handler := { m_log_buffer := [] }, m_device := some 7, m_log_count := 5 }).1 7
      rfl).1,
   (C8_log_counter_steps sampleProtocol
      { m_handler := { m_log_buffer := [] }, m_device := none, m_log_count := 5 }).2.1 rfl,
   (C8_log_counter_steps sampleProtocol
      { m_handler := { m_log_buffer := [] }, m_device := some 7, m_log_count := 5 }).2.2.1
      (key 'd') (by decide)⟩

/-- C9 (keystroke table with a device present): with CurrentDevice PRESENT(dev),
`d` sends to dev exactly (TX_DMX, [255,1,2,3,4,5,6], 7), `e` sends exactly
(ECHO, the 9 ASCII bytes of `echo test`, 9), `f` sends (GET_FLAGS, no payload, 0)
and `l` sends (GET_LOG, no payload, 0); each is the only effect of the
keystroke, and the state (device slot and LogCounter included) is unchanged. -/
theorem C9_keystroke_table (P : Protocol) (s : InputHandler) (dev : Handle)
    (hdev : s.m_device = some dev) :
    Input P s (key 'd') =
      ([.SendMessage dev P.TX_DMX (some [255, 1, 2, 3, 4, 5, 6]) 7], s) ∧
    Input P s (key 'e') =
      ([.SendMessage dev P.ECHO_COMMAND (some (ascii "echo test")) 9], s) ∧
    Input P s (key 'f') = ([.SendMessage dev P.GET_FLAGS none 0], s) ∧
    Input P s (key 'l') = ([.SendMessage dev P.GET_LOG none 0], s) := by
  refine ⟨?_, ?_, ?_, ?_⟩
  · simp [Input, key, SendDMX, CheckForDevice, hdev]
  · simp [Input, key, SendEcho, CheckForDevice, hdev, ascii]
  · simp [Input, key, GetFlags, CheckForDevice, hdev]
  · simp [Input, key, GetLogs, CheckForDevice, hdev]

/-- C9 at the state with device 7 present and LogCounter 2. -/
theorem C9_keystroke_table_witness :
    Input sampleProtocol
        { m_handler := { m_log_buffer := [] }, m_device := some 7, m_log_count := 2 }
        (key 'd') =
      ([.SendMessage 7 0x81 (some [255, 1, 2, 3, 4, 5, 6]) 7],
       { m_handler := { m_log_buffer := [] }, m_device := some 7, m_log_count := 2 }) :=
  (C9_keystroke_table sampleProtocol
    { m_handler := { m_log_buffer := [] }, m_device := some 7, m_log_count := 2 } 7 rfl).1

/-- C10 (F1): for every reply, whatever its command code (recognised or not, a
malformed GET_LOG included) and whatever the buffer, `NewMessage` completes and
prints the command-specific output followed by the flag lines: `Logs pending!`
iff LOGS_PENDING is set, then `Flags changed!` iff FLAGS_CHANGED is set, then
`Message truncated` iff MSG_TRUNCATED is set, each exactly once; none of the
three lines occurs in the command-specific output. -/
theorem C10_flag_lines (P : Protocol) (h : MessageHandler) (m : Message) :
    ∃ body h', dispatch P h m = .ok (body, h') ∧
      NewMessage P h m =
        .ok (body ++
              ((if m.flags &&& P.LOGS_PENDING_FLAG ≠ 0 then
                  [.INFO (ascii "Logs pending!")] else []) ++
               (if m.flags &&& P.FLAGS_CHANGED_FLAG ≠ 0 then
                  [.INFO (ascii "Flags changed!")] else []) ++
               (if m.flags &&& P.MSG_TRUNCATED_FLAG ≠ 0 then
                  [.INFO (ascii "Message truncated")] else [])), h') ∧
      Output.INFO (ascii "Logs pending!") ∉ body ∧
      Output.INFO (ascii "Flags changed!") ∉ body ∧
      Output.INFO (ascii "Message truncated") ∉ body ∧
      (∀ out h'', NewMessage P h m = .ok (out, h'') →
        out.count (.INFO (ascii "Logs pending!")) =
          (if m.flags &&& P.LOGS_PENDING_FLAG ≠ 0 then 1 else 0) ∧
        out.count (.INFO (ascii "Flags changed!")) =
          (if m.flags &&& P.FLAGS_CHANGED_FLAG ≠ 0 then 1 else 0) ∧
        out.count (.INFO (ascii "Message truncated")) =
          (if m.flags &&& P.MSG_TRUNCATED_FLAG ≠ 0 then 1 else 0)) := by
  obtain ⟨body, h', hd, hb⟩ := dispatch_body P h m
  have h1 := hb (ascii "Logs pending!") (by simp)
  have h2 := hb (ascii "Flags changed!") (by simp)
  have h3 := hb (ascii "Message truncated") (by simp)
  have hnm : NewMessage P h m = .ok (body ++ flagLines P m.flags, h') := by
    simp only [NewMessage, hd]
  refine ⟨body, h', hd, hnm, h1, h2, h3, ?_⟩
  intro out h'' hout
  rw [hnm] at hout
  have hout' : body ++ flagLines P m.flags = out := by
    injection hout with e
    exact congrArg Prod.fst e
  subst hout'
  have e12 : ascii "Logs pending!" ≠ ascii "Flags changed!" := by decide
  have e13 : ascii "Logs pending!" ≠ ascii "Message truncated" := by decide
  have e23 : ascii "Flags changed!" ≠ ascii "Message truncated" := by decide
  simp only [List.count_append, List.count_eq_zero_of_not_mem h1,
    List.count_eq_zero_of_not_mem h2, List.count_eq_zero_of_not_mem h3, flagLines]
  refine ⟨?_, ?_, ?_⟩ <;> split <;> split <;> split <;>
    simp [List.count_cons, e12, e13, e23, e12.symm, e13.symm, e23.symm]

/-- C10 at an unknown reply (command 0x10) with LOGS_PENDING and MSG_TRUNCATED
set: the warning, then `Logs pending!`, then `Message truncated`. -/
theorem C10_flag_lines_witness :
    NewMessage sampleProtocol { m_log_buffer := [97] } ⟨0x10, 0, 5, none⟩ =
      .ok ([.WARN (ascii "Unknown command: 0x10"), .INFO (ascii "Logs pending!"),
            .INFO (ascii "Message truncated")], { m_log_buffer := [97] }) ∧
    ([Output.WARN (ascii "Unknown command: 0x10"), .INFO (ascii "Logs pending!"),
        .INFO (ascii "Message truncated")].count (.INFO (ascii "Logs pending!")) = 1 ∧
     [Output.WARN (ascii "Unknown command: 0x10"), .INFO (ascii "Logs pending!"),
        .INFO (ascii "Message truncated")].count (.INFO (ascii "Flags changed!")) = 0 ∧
     [Output.WARN (ascii "Unknown command: 0x10"), .INFO (ascii "Logs pending!"),
        .INFO (ascii "Message truncated")].count (.INFO (ascii "Message truncated")) = 1) := by
  have hrun : NewMessage sampleProtocol { m_log_buffer := [97] } ⟨0x10, 0, 5, none⟩ =
      .ok ([.WARN (ascii "Unknown command: 0x10"), .INFO (ascii "Logs pending!"),
            .INFO (ascii "Message truncated")], { m_log_buffer := [97] }) := by decide
  obtain ⟨_, _, _, _, _, _, _, hcount⟩ :=
    C10_flag_lines sampleProtocol { m_log_buffer := [97] } ⟨0x10, 0, 5, none⟩
  exact ⟨hrun, hcount _ _ hrun⟩

/-! ## Further lemmas on replies -/

theorem overflow_not_mem_flagLines (P : Protocol) (flags : Nat) :
    Output.INFO (ascii "Log overflow occured, some messages have been lost") ∉
      flagLines P flags := by
  unfold flagLines
  split <;> split <;> split <;> simp [ascii]

theorem overflow_not_mem_recordLines (cursor : Nat) (recs : List Bytes) :
    Output.INFO (ascii "Log overflow occured, some messages have been lost") ∉
      recordLines cursor recs := by
  induction recs generalizing cursor with
  | nil => simp [recordLines]
  | cons r rs ih =>
    have hrest := ih (cursor + r.length + 1)
    simp only [recordLines, List.mem_cons, not_or]
    exact ⟨by simp [ascii], by simp [ascii], hrest⟩

/-- A handler state reached from the initial one holds no null in its buffer. -/
theorem reachable_no_null (P : Protocol) (h : MessageHandler)
    (hreach : ∃ ms out, NewMessages P { m_log_buffer := [] } ms = .ok (out, h)) :
    0 ∉ h.m_log_buffer := by
  obtain ⟨ms, out, hrun⟩ := hreach
  obtain ⟨out', hrun', _⟩ := NewMessages_log P ms { m_log_buffer := [] } (by simp)
  rw [hrun] at hrun'
  injection hrun' with e
  have e2 := congrArg Prod.snd e
  simp only at e2
  rw [e2]
  exact afterLastNull_no_null _

theorem NewMessage_GET_LOG_cons (P : Protocol) (h : MessageHandler)
    (rc flags d0 : Nat) (rest : Bytes) :
    NewMessage P h ⟨P.GET_LOG, rc, flags, some (d0 :: rest)⟩ =
      .ok (recordLines 0 (records (h.m_log_buffer ++ rest)) ++
            (if d0 = 0 then []
             else [.INFO (ascii "Log overflow occured, some messages have been lost")]) ++
            flagLines P flags,
           { m_log_buffer := afterLastNull (h.m_log_buffer ++ rest) }) := by
  unfold NewMessage
  rw [dispatch_GET_LOG P h _ rfl, PrintLog_cons]
  by_cases hd : d0 = 0 <;> simp [hd]

/-- C11 (malformed log reply): for every buffer state, a GET_LOG reply with an
empty payload (no bytes, or a NULL payload) makes `NewMessage` print the warning
`Malformed logs response`, followed only by the flag lines: no log line, no
overflow notice; `m_log_buffer` is unchanged. -/
theorem C11_malformed_log_reply (P : Protocol) (h : MessageHandler) (rc flags : Nat) :
    NewMessage P h ⟨P.GET_LOG, rc, flags, some []⟩ =
      .ok (.WARN (ascii "Malformed logs response") :: flagLines P flags, h) ∧
    NewMessage P h ⟨P.GET_LOG, rc, flags, none⟩ =
      .ok (.WARN (ascii "Malformed logs response") :: flagLines P flags, h) ∧
    logLines (.WARN (ascii "Malformed logs response") :: flagLines P flags) = [] ∧
    Output.INFO (ascii "Log overflow occured, some messages have been lost") ∉
      (Output.WARN (ascii "Malformed logs response") :: flagLines P flags) := by
  refine ⟨?_, ?_, ?_, ?_⟩
  · unfold NewMessage
    rw [dispatch_GET_LOG P h _ rfl]
    rfl
  · unfold NewMessage
    rw [dispatch_GET_LOG P h _ rfl]
    rfl
  · have := logLines_flagLines P flags
    simp only [logLines] at this ⊢
    rw [List.filterMap_cons, this]
    rfl
  · rw [List.mem_cons, not_or]
    exact ⟨by simp, overflow_not_mem_flagLines P flags⟩

/-- C12 (log overflow): for every buffer state and every GET_LOG reply with a
non-empty payload, `NewMessage` prints the record lines, then the line
`Log overflow occured, some messages have been lost` iff `payload[0]` is
non-zero, then the flag lines; the notice occurs exactly once or not at all and
every log line precedes it.  For a payload of exactly one byte and every buffer
the handler can have reached, nothing is appended, no log line is printed and
the buffer is unchanged. -/
theorem C12_log_overflow (P : Protocol) (h : MessageHandler) (rc flags d0 : Nat)
    (rest : Bytes) :
    NewMessage P h ⟨P.GET_LOG, rc, flags, some (d0 :: rest)⟩ =
      .ok (recordLines 0 (records (h.m_log_buffer ++ rest)) ++
            (if d0 = 0 then []
             else [.INFO (ascii "Log overflow occured, some messages have been lost")]) ++
            flagLines P flags,
           { m_log_buffer := afterLastNull (h.m_log_buffer ++ rest) }) ∧
    (recordLines 0 (records (h.m_log_buffer ++ rest)) ++
        (if d0 = 0 then []
         else [Output.INFO (ascii "Log overflow occured, some messages have been lost")]) ++
        flagLines P flags).count
      (Output.INFO (ascii "Log overflow occured, some messages have been lost")) =
      (if d0 = 0 then 0 else 1) ∧
    logLines (flagLines P flags) = [] ∧
    ((∃ ms out, NewMessages P { m_log_buffer := [] } ms = .ok (out, h)) →
      NewMessage P h ⟨P.GET_LOG, rc, flags, some [d0]⟩ =
        .ok ((if d0 = 0 then []
              else [.INFO (ascii "Log overflow occured, some messages have been lost")]) ++
             flagLines P flags, h)) := by
  refine ⟨NewMessage_GET_LOG_cons P h rc flags d0 rest, ?_, logLines_flagLines P flags, ?_⟩
  · rw [List.count_append, List.count_append,
      List.count_eq_zero_of_not_mem (overflow_not_mem_recordLines _ _),
      List.count_eq_zero_of_not_mem (overflow_not_mem_flagLines _ _)]
    by_cases hd : d0 = 0 <;> simp [hd]
  · intro hreach
    have h0 := reachable_no_null P h hreach
    rw [NewMessage_GET_LOG_cons, List.append_nil, records_of_no_null _ h0,
      afterLastNull_of_no_null _ h0]
    rfl

/-- C12 at the payload `[1, x, 0]` and an empty buffer: the index line, `LOG: x`,
then the overflow notice; and at the one-byte payload `[1]` with the buffer `a`
reached by the reply `[0, a]`: only the notice, buffer unchanged. -/
theorem C12_log_overflow_witness :
    NewMessage sampleProtocol { m_log_buffer := [] } ⟨0x82, 0, 0, some [1, 120, 0]⟩ =
      .ok ([.INFO (ascii "[0, 1]"), .INFO (ascii "LOG: x"),
            .INFO (ascii "Log overflow occured, some messages have been lost")],
           { m_log_buffer := [] }) ∧
    NewMessage sampleProtocol { m_log_buffer := [97] } ⟨0x82, 0, 0, some [1]⟩ =
      .ok ([.INFO (ascii "Log overflow occured, some messages have been lost")],
           { m_log_buffer := [97] }) :=
  ⟨(C12_log_overflow sampleProtocol { m_log_buffer := [] } 0 0 1 [120, 0]).1.trans (by decide),
   ((C12_log_overflow sampleProtocol { m_log_buffer := [97] } 0 0 1 []).2.2.2
      ⟨[⟨0x82, 0, 0, some [0, 97]⟩], [], by decide⟩).trans (by decide)⟩

theorem PrintEcho_eq (m : Message) :
    PrintEcho m =
      [.INFO (ascii "Echo Reply (" ++ decimal m.return_code ++ ascii "): " ++
        m.payload.getD [])] := by
  unfold PrintEcho Message.payload_size
  cases hp : m.payload with
  | none => rfl
  | some p => cases p <;> simp

theorem PrintAck_eq (m : Message) :
    PrintAck m =
      [.INFO (ascii "ACK (" ++ decimal m.return_code ++ ascii "): payload_size: " ++
        decimal (m.payload.getD []).length)] := rfl

/-- C13 (reply dispatch table): for every handler state and reply, `NewMessage`
renders an ECHO reply as the single line `Echo Reply (<rc>): <payload bytes>`
(no text for an empty payload), a TX_DMX reply and a WRITE_LOG reply alike as
the single line `ACK (<rc>): payload_size: <n>` with n the payload length, and
a reply whose command is none of ECHO, TX_DMX, GET_LOG, GET_FLAGS, WRITE_LOG as
the single warning `Unknown command: ` followed by the `ToHex` rendering of the
command (`0x<hex>`); the flag lines follow and the handler is unchanged. -/
theorem C13_dispatch_table (P : Protocol) (h : MessageHandler) (m : Message) :
    (m.command = P.ECHO_COMMAND →
      NewMessage P h m =
        .ok (.INFO (ascii "Echo Reply (" ++ decimal m.return_code ++ ascii "): " ++
                m.payload.getD []) :: flagLines P m.flags, h)) ∧
    (m.command = P.TX_DMX ∨ m.command = P.WRITE_LOG →
      NewMessage P h m =
        .ok (.INFO (ascii "ACK (" ++ decimal m.return_code ++ ascii "): payload_size: " ++
                decimal (m.payload.getD []).length) :: flagLines P m.flags, h)) ∧
    (m.command ∉ [P.ECHO_COMMAND, P.TX_DMX, P.GET_LOG, P.GET_FLAGS, P.WRITE_LOG] →
      NewMessage P h m =
        .ok (.WARN (ascii "Unknown command: " ++ P.ToHex m.command) :: flagLines P m.flags,
             h) ∧
      ∀ hex, P.ToHex m.command = ascii "0x" ++ hex →
        NewMessage P h m =
          .ok (.WARN (ascii "Unknown command: 0x" ++ hex) :: flagLines P m.flags, h)) := by
  have hd := P.distinct
  simp only [List.nodup_cons, List.mem_cons, List.mem_singleton, not_or, List.not_mem_nil,
    not_false_eq_true, and_true, List.nodup_nil] at hd
  obtain ⟨⟨h12, h13, h14, h15⟩, ⟨h23, h24, h25⟩, ⟨h34, h35⟩, h45⟩ := hd
  refine ⟨fun hc => ?_, fun hc => ?_, fun hc => ?_⟩
  · simp only [NewMessage, dispatch, hc, if_true, PrintEcho_eq]
    rfl
  · rcases hc with hc | hc
    · simp only [NewMessage, dispatch, hc, if_neg (Ne.symm h12), if_true, PrintAck_eq]
      rfl
    · simp only [NewMessage, dispatch, hc, if_neg (Ne.symm h15), if_neg (Ne.symm h25),
        if_neg (Ne.symm h35), if_neg (Ne.symm h45), if_true, PrintAck_eq]
      rfl
  · simp only [List.mem_cons, List.mem_singleton, not_or, List.not_mem_nil,
      not_false_eq_true, and_true] at hc
    obtain ⟨c1, c2, c3, c4, c5⟩ := hc
    have hrun : NewMessage P h m =
        .ok (.WARN (ascii "Unknown command: " ++ P.ToHex m.command) :: flagLines P m.flags,
             h) := by
      simp only [NewMessage, dispatch, if_neg c1, if_neg c2, if_neg c3, if_neg c4, if_neg c5]
      rfl
    refine ⟨hrun, fun hex hhex => ?_⟩
    rw [hrun, hhex]
    simp [ascii]

/-- C13 at the replies (ECHO, 0, 0, `echo test`), (TX_DMX, 0, 0, empty) and
(0x10, 0, 0, empty): `Echo Reply (0): echo test`, `ACK (0): payload_size: 0`
and `Unknown command: 0x10`. -/
theorem C13_dispatch_table_witness :
    NewMessage sampleProtocol { m_log_buffer := [] } ⟨0x80, 0, 0, some (ascii "echo test")⟩ =
      .ok ([.INFO (ascii "Echo Reply (0): echo test")], { m_log_buffer := [] }) ∧
    NewMessage sampleProtocol { m_log_buffer := [] } ⟨0x81, 0, 0, some []⟩ =
      .ok ([.INFO (ascii "ACK (0): payload_size: 0")], { m_log_buffer := [] }) ∧
    NewMessage sampleProtocol { m_log_buffer := [] } ⟨0x10, 0, 0, some []⟩ =
      .ok ([.WARN (ascii "Unknown command: 0x10")], { m_log_buffer := [] }) :=
  ⟨((C13_dispatch_table sampleProtocol { m_log_buffer := [] }
      ⟨0x80, 0, 0, some (ascii "echo test")⟩).1 rfl).trans (by decide),
   ((C13_dispatch_table sampleProtocol { m_log_buffer := [] }
      ⟨0x81, 0, 0, some []⟩).2.1 (Or.inl rfl)).trans (by decide),
   (((C13_dispatch_table sampleProtocol { m_log_buffer := [] }
      ⟨0x10, 0, 0, some []⟩).2.2 (by decide)).2 (ascii "10") (by decide)).trans (by decide)⟩

/-- C14 (CurrentDevice state machine): for every state and handle dev,
`DeviceEvent(DEVICE_ADDED, dev)` logs `Open Lighting Device added`, attaches the
reply handler to dev and sets CurrentDevice to PRESENT(dev), whatever was
present before; `DeviceEvent(DEVICE_REMOVED, dev)` logs
`Open Lighting Device removed` and sets CurrentDevice to NONE; no keystroke
handled by `Input` and no reply handled by `NewMessage` changes CurrentDevice. -/
theorem C14_current_device_machine (P : Protocol) (s : InputHandler) (dev : Handle)
    (c : Int) (m : Message) :
    DeviceEvent s .DEVICE_ADDED dev =
      ([.print (.INFO (ascii "Open Lighting Device added")), .SetHandler dev],
       { s with m_device := some dev }) ∧
    DeviceEvent s .DEVICE_REMOVED dev =
      ([.print (.INFO (ascii "Open Lighting Device removed"))],
       { s with m_device := none }) ∧
    (Input P s c).2.m_device = s.m_device ∧
    (∃ out s', deliver P s m = .ok (out, s') ∧ s'.m_device = s.m_device) := by
  refine ⟨rfl, rfl, Input_m_device P s c, ?_⟩
  obtain ⟨body, h', hd, _⟩ := dispatch_body P s.m_handler m
  refine ⟨body ++ flagLines P m.flags, { s with m_handler := h' }, ?_, rfl⟩
  simp only [deliver, NewMessage, hd]

/-- C15 (help output, O1): `PrintCommands` prints a fixed table of eight lines,
the header `Commands:` and then one line per key, for the keys d, e, f, h, l,
w, q in that order and no other key; the key `h` prints this table in every
session state. -/
theorem C15_help_table (P : Protocol) (s : InputHandler) :
    PrintCommands =
      [.print (.COUT (ascii "Commands:")),
       .print (.COUT (ascii " d - Send DMX frame")),
       .print (.COUT (ascii " e - Send Echo command")),
       .print (.COUT (ascii " f - Fetch Flags State")),
       .print (.COUT (ascii " h - Print this help message")),
       .print (.COUT (ascii " l - Fetch Logs")),
       .print (.COUT (ascii " w - Write Log")),
       .print (.COUT (ascii " q - Quit"))] ∧
    PrintCommands.length = 8 ∧
    PrintCommands.head? = some (.print (.COUT (ascii "Commands:"))) ∧
    PrintCommands.tail.map helpKey =
      ['d', 'e', 'f', 'h', 'l', 'w', 'q'].map (fun k => some k.toNat) ∧
    Input P s (key 'h') = (PrintCommands, s) := by
  refine ⟨rfl, rfl, rfl, by decide, ?_⟩
  simp [Input, key]

/-- C16 (keys that need no device): in every session state, CurrentDevice NONE
included, `h` prints the help table, that is the eight lines `Commands:`,
` d - Send DMX frame`, ` e - Send Echo command`, ` f - Fetch Flags State`,
` h - Print this help message`, ` l - Fetch Logs`, ` w - Write Log`,
` q - Quit`, and `q` requests termination, each with no other effect (no
`Device not present`, no `SendMessage`, state unchanged); and every character
outside d, e, f, h, l, q, w has no effect at all: no output, no send, no
termination request, state unchanged. -/
theorem C16_keys_without_device (P : Protocol) (s : InputHandler) (c : Int) :
    Input P s (key 'h') =
      ([.print (.COUT (ascii "Commands:")),
        .print (.COUT (ascii " d - Send DMX frame")),
        .print (.COUT (ascii " e - Send Echo command")),
        .print (.COUT (ascii " f - Fetch Flags State")),
        .print (.COUT (ascii " h - Print this help message")),
        .print (.COUT (ascii " l - Fetch Logs")),
        .print (.COUT (ascii " w - Write Log")),
        .print (.COUT (ascii " q - Quit"))], s) ∧
    Input P s (key 'h') = (PrintCommands, s) ∧
    (Input P s (key 'h')).1.length = 8 ∧
    Action.print (.INFO (ascii "Device not present")) ∉ (Input P s (key 'h')).1 ∧
    sends (Input P s (key 'h')).1 = [] ∧
    Action.Terminate ∉ (Input P s (key 'h')).1 ∧
    Action.print (.INFO (ascii "Device not present")) ∉ PrintCommands ∧
    sends PrintCommands = [] ∧
    Action.Terminate ∉ PrintCommands ∧
    Input P s (key 'q') = ([.Terminate], s) ∧
    (c ∉ recognisedKeys → Input P s c = ([], s)) := by
  have hh : Input P s (key 'h') = (PrintCommands, s) := by simp [Input, key]
  have hnote : Action.print (.INFO (ascii "Device not present")) ∉ PrintCommands := by decide
  have hterm : Action.Terminate ∉ PrintCommands := by decide
  refine ⟨hh, hh, by rw [hh]; rfl, by rw [hh]; exact hnote,
    by rw [hh]; exact sends_PrintCommands, by rw [hh]; exact hterm, hnote,
    sends_PrintCommands, hterm, by simp [Input, key], fun hc => ?_⟩
  simp only [recognisedKeys, List.mem_cons, List.mem_singleton, not_or, List.not_mem_nil,
    not_false_eq_true, and_true] at hc
  obtain ⟨hd, he, hf, hh, hl, hq, hw⟩ := hc
  simp [Input, hd, he, hf, hh, hl, hq, hw]

/-- C16 in the initial state (no device): `h` prints the eight lines of the help
table, `q` requests termination, and the characters `D` and -1 do nothing. -/
theorem C16_keys_without_device_witness :
    Input sampleProtocol InputHandler.init (key 'h') =
      ([.print (.COUT (ascii "Commands:")),
        .print (.COUT (ascii " d - Send DMX frame")),
        .print (.COUT (ascii " e - Send Echo command")),
        .print (.COUT (ascii " f - Fetch Flags State")),
        .print (.COUT (ascii " h - Print this help message")),
        .print (.COUT (ascii " l - Fetch Logs")),
        .print (.COUT (ascii " w - Write Log")),
        .print (.COUT (ascii " q - Quit"))], InputHandler.init) ∧
    Input sampleProtocol InputHandler.init (key 'q') = ([.Terminate], InputHandler.init) ∧
    Input sampleProtocol InputHandler.init (key 'D') = ([], InputHandler.init) ∧
    Input sampleProtocol InputHandler.init (-1) = ([], InputHandler.init) :=
  ⟨(C16_keys_without_device sampleProtocol InputHandler.init 0).1,
   (C16_keys_without_device sampleProtocol InputHandler.init 0).2.2.2.2.2.2.2.2.2.1,
   (C16_keys_without_device sampleProtocol InputHandler.init (key 'D')).2.2.2.2.2.2.2.2.2.2
     (by decide),
   (C16_keys_without_device sampleProtocol InputHandler.init (-1)).2.2.2.2.2.2.2.2.2.2
     (by decide)⟩

/-! ## Iterations of the drain loop -/

theorem find_first_of_bounds (buf : Bytes) (start pos : Nat)
    (h : find_first_of buf 0 start = some pos) :
    start ≤ pos ∧ pos < buf.length ∧
      (buf.drop (pos + 1)).count 0 + 1 = (buf.drop start).count 0 := by
  unfold find_first_of at h
  cases hscan : scan 0 (buf.drop start) with
  | none => simp [hscan] at h
  | some k =>
    have hpos : pos = k + start := by simpa [hscan] using h.symm
    obtain ⟨hk, hsplit, hr⟩ := scan_eq_some 0 _ k hscan
    have hklen : k < buf.length - start := by simpa using hk
    have hdrop : (buf.drop start).drop (k + 1) = buf.drop (pos + 1) := by
      rw [List.drop_drop, hpos]; congr 1; omega
    refine ⟨by omega, by omega, ?_⟩
    conv_rhs => rw [hsplit]
    rw [List.count_append, List.count_cons_self, List.count_eq_zero_of_not_mem hr, hdrop]
    omega

/-- An iteration that finds no null: the cursor prefix is erased and the loop
ends. -/
theorem drain_no_null (fuel : Nat) (buf : Bytes) (start : Nat)
    (h : find_first_of buf 0 start = none) :
    drain (fuel + 1) buf start = .ok ([], buf.drop start) := by
  rw [drain]
  simp only [h, erase_front]

/-- An iteration that finds a null at `pos`: the two lines of the record are
printed; the loop ends when the null is the last byte, and goes on with the
cursor at `pos + 1` otherwise. -/
theorem drain_null (fuel : Nat) (buf : Bytes) (start pos : Nat) (hstart : start ≤ buf.length)
    (h : find_first_of buf 0 start = some pos) :
    drain (fuel + 1) buf start =
      if pos + 1 = buf.length then
        .ok ([.INFO (ascii "[" ++ decimal start ++ ascii ", " ++ decimal pos ++ ascii "]"),
              .INFO (ascii "LOG: " ++ (buf.drop start).take (pos - start))], [])
      else
        match drain fuel buf (pos + 1) with
        | .error e => .error e
        | .ok (rest, buf') =>
          .ok ([.INFO (ascii "[" ++ decimal start ++ ascii ", " ++ decimal pos ++ ascii "]"),
                .INFO (ascii "LOG: " ++ (buf.drop start).take (pos - start))] ++ rest, buf') := by
  rw [drain]
  simp only [h, substr_in_range _ _ _ hstart]

/-- The loop ends within one iteration more than the nulls at or after the
cursor, whatever the budget beyond that. -/
theorem drain_of_null_count (fuel : Nat) (buf : Bytes) (start : Nat)
    (hstart : start ≤ buf.length) (hfuel : (buf.drop start).count 0 < fuel) :
    drain fuel buf start =
      .ok (recordLines start (records (buf.drop start)), afterLastNull (buf.drop start)) := by
  induction fuel generalizing start with
  | zero => omega
  | succ fuel ih =>
    cases hfind : find_first_of buf 0 start with
    | none =>
      have hscan : scan 0 (buf.drop start) = none := by
        cases hs : scan 0 (buf.drop start) with
        | none => rfl
        | some k => simp [find_first_of, hs] at hfind
      have h0 := scan_eq_none 0 _ hscan
      rw [drain_no_null fuel buf start hfind, records_of_no_null _ h0,
        afterLastNull_of_no_null _ h0]
      rfl
    | some pos =>
      obtain ⟨h1, h2, h3⟩ := find_first_of_bounds buf start pos hfind
      have hnext : drain fuel buf (pos + 1) = _ := ih (pos + 1) (by omega) (by omega)
      have hbig := drain_spec (buf.length - start + 1) buf start hstart (by omega)
      rw [drain_null _ buf start pos hstart hfind] at hbig
      rw [drain_null fuel buf start pos hstart hfind]
      by_cases hend : pos + 1 = buf.length
      · rw [if_pos hend] at hbig ⊢
        exact hbig
      · rw [if_neg hend] at hbig ⊢
        rw [drain_spec (buf.length - start) buf (pos + 1) (by omega) (by omega)] at hbig
        rw [hnext]
        exact hbig

theorem drain_never_out_of_range (fuel : Nat) (buf : Bytes) (start : Nat)
    (hstart : start ≤ buf.length) : drain fuel buf start ≠ .error .out_of_range := by
  induction fuel generalizing start with
  | zero => simp [drain]
  | succ fuel ih =>
    cases hfind : find_first_of buf 0 start with
    | none => rw [drain_no_null fuel buf start hfind]; simp
    | some pos =>
      obtain ⟨_, h2, _⟩ := find_first_of_bounds buf start pos hfind
      rw [drain_null fuel buf start pos hstart hfind]
      by_cases hend : pos + 1 = buf.length
      · rw [if_pos hend]; simp
      · rw [if_neg hend]
        have := ih (pos + 1) (by omega)
        cases hd : drain fuel buf (pos + 1) with
        | error e =>
          rw [hd] at this
          simpa using this
        | ok r => simp

theorem NewMessage_GET_LOG_zero (P : Protocol) (h : MessageHandler)
    (rc flags : Nat) (rest : Bytes) :
    NewMessage P h ⟨P.GET_LOG, rc, flags, some (0 :: rest)⟩ =
      .ok (recordLines 0 (records (h.m_log_buffer ++ rest)) ++ flagLines P flags,
           { m_log_buffer := afterLastNull (h.m_log_buffer ++ rest) }) := by
  rw [NewMessage_GET_LOG_cons]
  simp

theorem NewMessage_total (P : Protocol) (h : MessageHandler) (m : Message) :
    ∃ out h', NewMessage P h m = .ok (out, h') := by
  obtain ⟨body, h', hd, _⟩ := dispatch_body P h m
  exact ⟨body ++ flagLines P m.flags, h', by simp only [NewMessage, hd]⟩

theorem NewMessage_other (P : Protocol) (h : MessageHandler) (m : Message)
    (hc : m.command ≠ P.GET_LOG) :
    ∃ out, NewMessage P h m = .ok (out, h) ∧ logLines out = [] := by
  obtain ⟨body, hd, hl⟩ := dispatch_other P h m hc
  refine ⟨body ++ flagLines P m.flags, by simp only [NewMessage, hd], ?_⟩
  rw [logLines_append, hl, logLines_flagLines]
  rfl

/-- C17 (`NewMessage` never fails): for every reply (any command, flags, return
code and payload) and every `m_log_buffer` content, `NewMessage` completes
without error.  In the loop of `PrintLog` every `pos` found from the cursor
`start` satisfies start <= pos < size; with the cursor within the buffer,
`erase(0, start)` and `substr(start, pos - start)` are in range and the next
cursor `pos + 1` is within the buffer again; so the loop, which starts at
cursor 0, never raises the out-of-range error. -/
theorem C17_new_message_never_fails (P : Protocol) (h : MessageHandler) (m : Message) :
    (∃ out h', NewMessage P h m = .ok (out, h')) ∧
    (∀ (buf : Bytes) (start pos : Nat), find_first_of buf 0 start = some pos →
      start ≤ pos ∧ pos < buf.length) ∧
    (∀ (buf : Bytes) (start : Nat), start ≤ buf.length →
      (∃ b, erase buf 0 start = .ok b) ∧
      (∀ pos, find_first_of buf 0 start = some pos →
        (∃ line, substr buf start (pos - start) = .ok line) ∧ pos + 1 ≤ buf.length) ∧
      (∀ fuel, drain fuel buf start ≠ .error .out_of_range)) := by
  refine ⟨NewMessage_total P h m, fun buf start pos hf => ?_, fun buf start hstart => ?_⟩
  · obtain ⟨h1, h2, _⟩ := find_first_of_bounds buf start pos hf
    exact ⟨h1, h2⟩
  · refine ⟨⟨_, erase_front buf start⟩, fun pos hf => ?_,
      fun fuel => drain_never_out_of_range fuel buf start hstart⟩
    obtain ⟨_, h2, _⟩ := find_first_of_bounds buf start pos hf
    exact ⟨⟨_, substr_in_range buf start _ hstart⟩, by omega⟩

/-- C17 at a GET_LOG payload made only of null bytes, decoded with the buffer
`a`: the decode completes; and in the buffer `a 0 b 0` the null found from
cursor 2 is at 3. -/
theorem C17_new_message_never_fails_witness :
    (∃ out h', NewMessage sampleProtocol { m_log_buffer := [97] } ⟨0x82, 0, 0, some [0, 0, 0]⟩ =
      .ok (out, h')) ∧
    find_first_of [97, 0, 98, 0] 0 2 = some 3 ∧ 2 ≤ 3 ∧ 3 < ([97, 0, 98, 0] : Bytes).length :=
  ⟨(C17_new_message_never_fails sampleProtocol { m_log_buffer := [97] }
      ⟨0x82, 0, 0, some [0, 0, 0]⟩).1,
   by decide,
   (C17_new_message_never_fails sampleProtocol { m_log_buffer := [97] }
      ⟨0x82, 0, 0, some [0, 0, 0]⟩).2.1 [97, 0, 98, 0] 2 3 (by decide)⟩

/-- C18: for every reply whose command is not GET_LOG, whatever its payload and
flags, `NewMessage` completes, prints no log line and leaves `m_log_buffer`
unchanged; so such a reply arriving between two GET_LOG replies changes neither
the log lines printed nor the final buffer. -/
theorem C18_other_replies_keep_buffer (P : Protocol) (h : MessageHandler) (m : Message)
    (hc : m.command ≠ P.GET_LOG) :
    (∃ out, NewMessage P h m = .ok (out, h) ∧ logLines out = []) ∧
    (∀ g1 g2 : Message, ∃ out3 out2 h',
      NewMessages P h [g1, m, g2] = .ok (out3, h') ∧
      NewMessages P h [g1, g2] = .ok (out2, h') ∧
      logLines out3 = logLines out2) := by
  refine ⟨NewMessage_other P h m hc, fun g1 g2 => ?_⟩
  obtain ⟨o1, h1, hg1⟩ := NewMessage_total P h g1
  obtain ⟨om, hm, hlm⟩ := NewMessage_other P h1 m hc
  obtain ⟨o2, h2, hg2⟩ := NewMessage_total P h1 g2
  refine ⟨o1 ++ (om ++ (o2 ++ [])), o1 ++ (o2 ++ []), h2, ?_, ?_, ?_⟩
  · simp only [NewMessages, hg1, hm, hg2]
  · simp only [NewMessages, hg1, hg2]
  · simp only [logLines_append, hlm, List.nil_append]

/-- C18 at an unknown reply (command 0x10) between the GET_LOG replies
`[0, a, b]` and `[0, c, 0]`: the buffer `ab` is kept and the record `abc` is
printed as without it. -/
theorem C18_other_replies_keep_buffer_witness :
    (∃ out, NewMessage sampleProtocol { m_log_buffer := [97, 98] } ⟨0x10, 0, 0, some [0, 0]⟩ =
      .ok (out, { m_log_buffer := [97, 98] }) ∧ logLines out = []) ∧
    NewMessages sampleProtocol { m_log_buffer := [] }
      [⟨0x82, 0, 0, some [0, 97, 98]⟩, ⟨0x10, 0, 0, some [0, 0]⟩,
       ⟨0x82, 0, 0, some [0, 99, 0]⟩] =
      .ok ([.WARN (ascii "Unknown command: 0x10"), .INFO (ascii "[0, 3]"),
            .INFO (ascii "LOG: abc")], { m_log_buffer := [] }) :=
  ⟨(C18_other_replies_keep_buffer sampleProtocol { m_log_buffer := [97, 98] }
      ⟨0x10, 0, 0, some [0, 0]⟩ (by decide)).1, by decide⟩

/-- C19 (chunking independence): for every buffer state (free of null bytes or
not), every byte sequence and every split of it into s1 and s2, handling two
GET_LOG replies with payloads `[0] ++ s1` and `[0] ++ s2` completes, prints the
same log lines in the same order and leaves the same `m_log_buffer` as handling
the single GET_LOG reply with payload `[0] ++ s1 ++ s2`. -/
theorem C19_chunking_independence (P : Protocol) (h : MessageHandler) (s1 s2 : Bytes)
    (rc1 flags1 rc2 flags2 rc flags : Nat) :
    ∃ out12 out h',
      NewMessages P h [⟨P.GET_LOG, rc1, flags1, some (0 :: s1)⟩,
        ⟨P.GET_LOG, rc2, flags2, some (0 :: s2)⟩] = .ok (out12, h') ∧
      NewMessage P h ⟨P.GET_LOG, rc, flags, some (0 :: (s1 ++ s2))⟩ = .ok (out, h') ∧
      logLines out12 = logLines out := by
  obtain ⟨hr, ha⟩ := records_append (h.m_log_buffer ++ s1) s2
  rw [List.append_assoc] at hr ha
  refine ⟨(recordLines 0 (records (h.m_log_buffer ++ s1)) ++ flagLines P flags1) ++
      ((recordLines 0 (records (afterLastNull (h.m_log_buffer ++ s1) ++ s2)) ++
        flagLines P flags2) ++ []),
    recordLines 0 (records (h.m_log_buffer ++ (s1 ++ s2))) ++ flagLines P flags,
    { m_log_buffer := afterLastNull (h.m_log_buffer ++ (s1 ++ s2)) }, ?_, ?_, ?_⟩
  · simp only [NewMessages, NewMessage_GET_LOG_zero, ha]
  · exact NewMessage_GET_LOG_zero P h rc flags (s1 ++ s2)
  · simp only [logLines_append, logLines_recordLines, logLines_flagLines, hr,
      List.append_nil]

/-- C20, as stated, fails: with the buffer `a`, which holds no null byte, the
loop runs one iteration (the search fails and the loop breaks), so a budget of
as many iterations as null bytes is exhausted while one iteration suffices. -/
theorem C20_counterexample :
    ([97] : Bytes).count 0 = 0 ∧
    drain (([97] : Bytes).count 0) [97] 0 = .error .out_of_fuel ∧
    drain (([97] : Bytes).count 0 + 1) [97] 0 = .ok ([], [97]) := by
  decide

/-- C20 (termination), amended: for every buffer and every cursor within it,
the loop of `PrintLog` terminates.  An iteration that finds no null breaks; an
iteration that finds a null as the last byte breaks; any other iteration goes
on with a strictly greater cursor that stays below the buffer length, and with
one null less ahead of it.  So the number of iterations is at most the number
of null bytes at or after the cursor plus one. -/
theorem C20_drain_terminates (buf : Bytes) (start : Nat) (hstart : start ≤ buf.length) :
    (∀ fuel, (buf.drop start).count 0 + 1 ≤ fuel →
      drain fuel buf start =
        .ok (recordLines start (records (buf.drop start)), afterLastNull (buf.drop start))) ∧
    (find_first_of buf 0 start = none →
      ∀ fuel, drain (fuel + 1) buf start = .ok ([], buf.drop start)) ∧
    (∀ pos, find_first_of buf 0 start = some pos →
      (pos + 1 = buf.length →
        ∀ fuel, drain (fuel + 1) buf start =
          .ok ([.INFO (ascii "[" ++ decimal start ++ ascii ", " ++ decimal pos ++ ascii "]"),
                .INFO (ascii "LOG: " ++ (buf.drop start).take (pos - start))], [])) ∧
      (pos + 1 ≠ buf.length →
        start < pos + 1 ∧ pos + 1 < buf.length ∧
        (buf.drop (pos + 1)).count 0 < (buf.drop start).count 0 ∧
        ∀ fuel, drain (fuel + 1) buf start =
          match drain fuel buf (pos + 1) with
          | .error e => .error e
          | .ok (rest, buf') =>
            .ok ([.INFO (ascii "[" ++ decimal start ++ ascii ", " ++ decimal pos ++
                    ascii "]"),
                  .INFO (ascii "LOG: " ++ (buf.drop start).take (pos - start))] ++ rest,
                 buf'))) := by
  refine ⟨fun fuel hf => drain_of_null_count fuel buf start hstart (by omega),
    fun hf fuel => drain_no_null fuel buf start hf, fun pos hf => ?_⟩
  obtain ⟨h1, h2, h3⟩ := find_first_of_bounds buf start pos hf
  refine ⟨fun hend fuel => ?_, fun hend => ⟨by omega, by omega, by omega, fun fuel => ?_⟩⟩
  · rw [drain_null fuel buf start pos hstart hf, if_pos hend]
  · rw [drain_null fuel buf start pos hstart hf, if_neg hend]

/-- C20 at the buffer `a 0 b`, cursor 0: one null, two iterations; the first
finds the null at 1 and goes on with the cursor at 2. -/
theorem C20_drain_terminates_witness :
    drain 2 [97, 0, 98] 0 =
      .ok ([.INFO (ascii "[0, 1]"), .INFO (ascii "LOG: a")], [98]) ∧
    (0 < 1 + 1 ∧ 1 + 1 < ([97, 0, 98] : Bytes).length) :=
  ⟨((C20_drain_terminates [97, 0, 98] 0 (by decide)).1 2 (by decide)).trans (by decide),
   (((C20_drain_terminates [97, 0, 98] 0 (by decide)).2.2 1 (by decide)).2 (by decide)).1,
   (((C20_drain_terminates [97, 0, 98] 0 (by decide)).2.2 1 (by decide)).2 (by decide)).2.1⟩

end JaRule
